import Mathlib

/-!
# go-loghttp: the logging transport and its installer

A shallow embedding of `loghttp.go` and `global/global.go`.

* HTTP requests and responses are records; a `Body` field is either nil or the
  address of an `io.ReadCloser` whose state lives in the store (bodies are shared
  between a request and its `WithContext` copy).
* Everything observable that happens during a round trip (a call of a logger, a
  line handed to package `log`, a call of `RoundTrip` on an interface value and its
  return) is appended to the store's trace.
* A Go panic (nil dereference) is an explicit result.
* Code outside the package (custom callbacks, other transports) is a function to an
  effect: it may read and close streams, do something of its own, and return or
  panic. A `LogRequest` callback is handed the pointer to the request that is passed
  on to the inner transport; what it returns in the model is that request as it
  leaves it, so any write through the pointer (method, headers, a replaced body) is
  seen by the inner transport. A `LogResponse` callback is the last to touch the
  response before `RoundTrip` returns it; the model follows what it does to the
  body stream, and the value `RoundTrip` returns is the response the inner transport
  returned.
* A stream is the sequence of outcomes its successive reads-to-the-end have: the
  bytes delivered and whether the read stopped at an error. A body of package
  `net/http` fails every read after `Close`; the flag `strict` says so.
* `DefaultLogRequest` and `DefaultLogResponse` are the functions the package
  variables of that name are initialised with.
* `http.DefaultTransport` is read at call time, so a chain of logging transports
  may be cyclic; execution is therefore indexed by the number of nested logging
  layers it may still enter.
-/

set_option linter.dupNamespace false
set_option autoImplicit false

namespace Loghttp

/-! ## Contexts -/

/-- Keys of context values: the pointer `ContextKeyRequestStart` of type `*contextKey`
(compared by identity) or any key owned by other code. -/
inductive contextKey where
  | RequestStart
  | foreign (id : Nat)
deriving DecidableEq

/-- Values stored in a context: a `time.Time` or something of another dynamic type. -/
inductive ContextValue where
  | time (t : Nat)
  | foreign (v : String)
deriving DecidableEq

/-- A `context.Context` as its chain of bindings, innermost first; the empty chain is
`context.Background()`. -/
abbrev Context := List (contextKey × ContextValue)

/-- The package-level key `ContextKeyRequestStart`. -/
def ContextKeyRequestStart : contextKey := contextKey.RequestStart

/-- Model of `context.WithValue(parent, key, val)`: a child context with one more binding. -/
def Context.WithValue (parent : Context) (key : contextKey) (val : ContextValue) : Context :=
  (key, val) :: parent

/-- Model of `ctx.Value(key)`: the innermost binding of `key`, nil when there is none. -/
def Context.Value (ctx : Context) (key : contextKey) : Option ContextValue :=
  List.lookup key ctx

/-- The type assertion `v.(time.Time)` of `DefaultLogResponse`, as its `ok` flag. -/
def isTime : Option ContextValue → Bool
  | some (ContextValue.time _) => true
  | _ => false

/-! ## Requests, responses, bodies -/

/-- The fields of `http.Request` the package reads. `Body` is nil or the address of a
stream in the store; `ctx` is the unexported context field. -/
structure Request where
  Method : String
  URL : String
  Header : List (String × List String)
  Body : Option Nat
  ctx : Context
deriving DecidableEq

/-- Model of `req.Context()`. -/
def Request.Context (req : Request) : Loghttp.Context := req.ctx

/-- Model of `req.WithContext(ctx)`: a shallow copy with the context replaced. The body
address is copied, so both requests share one stream. -/
def Request.WithContext (req : Request) (ctx : Loghttp.Context) : Request :=
  { req with ctx := ctx }

/-- The fields of `http.Response` the package reads. `Request` is the pointer to the
originating request (nil when the transport did not set it). -/
structure Response where
  StatusCode : Nat
  Body : Option Nat
  Request : Option Request
deriving DecidableEq

/-- State of an `io.ReadCloser`. `reads` lists what the coming calls of `ioutil.ReadAll`
deliver, one entry per call: the bytes up to EOF or up to the first read error, and
whether it was an error; once the list is used up a call delivers no bytes, with an error
if `thereafter`. `closed` says whether `Close` has been called, `strict` whether reading
after `Close` fails (as it does for the bodies of package `net/http`). -/
structure Stream where
  reads : List (String × Bool)
  thereafter : Bool
  closed : Bool
  strict : Bool
deriving DecidableEq

/-- The streams of the process, by address. -/
abbrev Streams := Nat → Stream

/-- Model of `ioutil.ReadAll` on one stream: the bytes read and the error flag, and the
stream afterwards. A strict stream that is closed fails at once; otherwise the read runs
to EOF or to the first read error and what lies behind that point stays unread. -/
def Stream.ReadAll (b : Stream) : (String × Bool) × Stream :=
  if b.closed && b.strict then (("", true), b)
  else
    match b.reads with
    | [] => (("", b.thereafter), b)
    | r :: rest => (r, { b with reads := rest })

/-- Model of `Close` on one stream. -/
def Stream.Close (b : Stream) : Stream :=
  { b with closed := true }

/-! ## Trace and store -/

/-- An argument of a `log.Printf` call, by the kind of value passed. -/
inductive Arg where
  | str (s : String)
  | int (n : Nat)
  | header (h : List (String × List String))
  | bytes (b : String)
deriving DecidableEq

/-- What a round trip does observably. -/
inductive Event where
  /-- The custom `LogRequest` callback is called with this request. -/
  | LogRequest (req : Request)
  /-- `DefaultLogRequest` is called with this request. -/
  | DefaultLogRequest (req : Request)
  /-- The custom `LogResponse` callback is called with this response. -/
  | LogResponse (resp : Option Response)
  /-- `DefaultLogResponse` is called with this response. -/
  | DefaultLogResponse (resp : Option Response)
  /-- `RoundTrip` is called on an `http.RoundTripper` with this request, whose body is in
  this state (nil body: none). -/
  | RoundTripCall (req : Request) (body : Option Stream)
  /-- That call has returned this pair. -/
  | RoundTripReturn (resp : Option Response) (err : Option String)
  /-- `log.Printf(format, args...)`. -/
  | Printf (format : String) (args : List Arg)
  /-- `log.Println(msg)`. -/
  | Println (msg : String)
  /-- Something a callback or an outside transport did on its own account. -/
  | Foreign (what : String)
deriving DecidableEq

/-- The mutable state a round trip works on. -/
structure Store where
  streams : Streams
  now : Nat
  trace : List Event

/-- Append events to the trace. -/
def Store.emit (s : Store) (es : List Event) : Store :=
  { s with trace := s.trace ++ es }

/-- Result of running code that may panic or need more nesting depth than allowed. -/
inductive Run (α : Type) where
  | done (a : α) (s : Store)
  | panicked (s : Store)
  | exhausted

/-- What code outside this package (a custom callback, an outside transport) does:
it may read or close streams, write something of its own, and return or panic
(`result = none`). For a `LogRequest` callback the value returned is the request it was
handed a pointer to, as the callback leaves it. -/
structure Effect (α : Type) where
  streams : Streams
  emitted : List String
  result : Option α

/-- Run outside code on the store. -/
def Effect.run {α : Type} (e : Effect α) (s : Store) : Run α :=
  let s1 : Store := { s with streams := e.streams, trace := s.trace ++ e.emitted.map Event.Foreign }
  match e.result with
  | some a => Run.done a s1
  | none => Run.panicked s1

/-! ## Transports -/

/-- The pair `(*http.Response, error)`; an error is identified by its message. -/
abbrev Result := Option Response × Option String

/-- An `http.RoundTripper`: a transport outside this package, or a `*loghttp.Transport`
with its three fields. -/
inductive RoundTripper where
  | base (exec : Request → Streams → Effect Result)
  | logging (Transport : Option RoundTripper)
      (LogRequest : Option (Request → Streams → Effect Request))
      (LogResponse : Option (Option Response → Streams → Effect Unit))

/-- The struct `Transport`: no field is mandatory. -/
structure Transport where
  Transport : Option RoundTripper
  LogRequest : Option (Request → Streams → Effect Request)
  LogResponse : Option (Option Response → Streams → Effect Unit)

/-- A `*Transport` used as an `http.RoundTripper`. -/
def Transport.toRoundTripper (t : Loghttp.Transport) : RoundTripper :=
  RoundTripper.logging t.Transport t.LogRequest t.LogResponse

/-- The package-level variables: `http.DefaultTransport` and `loghttp.DefaultTransport`. -/
structure Globals where
  httpDefaultTransport : Option RoundTripper
  DefaultTransport : Transport

/-- The run `r` with `a` as its value. -/
def Run.andThen {α β : Type} (r : Run α) (a : β) : Run β :=
  match r with
  | Run.done _ s => Run.done a s
  | Run.panicked s => Run.panicked s
  | Run.exhausted => Run.exhausted

/-! ## The default loggers -/

/-- Replace the state of the stream at address `a`. -/
def Store.setStream (s : Store) (a : Nat) (b : Stream) : Store :=
  { s with streams := Function.update s.streams a b }

/-- The function `DefaultLogRequest` (used if `LogRequest` is not set): print method and
URL, read the whole body (a nil body panics inside `ioutil.ReadAll`; a read error is only
reported), print the header and the bytes read. The body is not closed. -/
def DefaultLogRequest (req : Request) (s : Store) : Run Unit :=
  let s1 := s.emit [Event.Printf "--> %s %s" [Arg.str req.Method, Arg.str req.URL]]
  match req.Body with
  | none => Run.panicked s1
  | some a =>
    let r := (s1.streams a).ReadAll
    let s2 := s1.setStream a r.2
    let s3 := if r.1.2 then s2.emit [Event.Println "Run ioutil.ReadAll(resp.Body) failed"] else s2
    let s4 := s3.emit [Event.Printf "<-- Header:\n %s\n" [Arg.header req.Header]]
    let s5 := s4.emit [Event.Printf "<-- Body:\n %s\n" [Arg.bytes r.1.1]]
    Run.done () s5

/-- The function `DefaultLogResponse` (used if `LogResponse` is not set): take the context
of `resp.Request`, defer closing the body, read the whole body, then print status and URL,
followed by the bytes read when the context holds a time under `ContextKeyRequestStart`.
A nil response, a nil `resp.Request` or a nil body panics before anything is printed. -/
def DefaultLogResponse (resp : Option Response) (s : Store) : Run Unit :=
  match resp with
  | none => Run.panicked s
  | some r =>
    match r.Request with
    | none => Run.panicked s
    | some rq =>
      let ctx := rq.Context
      match r.Body with
      | none => Run.panicked s
      | some a =>
        let rd := (s.streams a).ReadAll
        let s1 := s.setStream a rd.2
        let s2 := if rd.1.2 then s1.emit [Event.Println "Run ioutil.ReadAll(resp.Body) failed"] else s1
        let s3 :=
          if isTime (ctx.Value ContextKeyRequestStart) then
            (s2.emit [Event.Printf "<-- %d %s" [Arg.int r.StatusCode, Arg.str rq.URL]]).emit
              [Event.Printf "<-- Body:\n %s\n" [Arg.bytes rd.1.1]]
          else
            s2.emit [Event.Printf "<-- %d %s" [Arg.int r.StatusCode, Arg.str rq.URL]]
        Run.done () (s3.setStream a (s3.streams a).Close)

/-! ## The logging transport -/

/-- The method `logRequest`: the custom callback when set, else `DefaultLogRequest`. The
value is the request behind the pointer after the call: as the callback leaves it, and as
it was after `DefaultLogRequest`, which writes no field of it. -/
def Transport.logRequest (t : Loghttp.Transport) (req : Request) (s : Store) : Run Request :=
  match t.LogRequest with
  | some f => (f req s.streams).run (s.emit [Event.LogRequest req])
  | none => (DefaultLogRequest req (s.emit [Event.DefaultLogRequest req])).andThen req

/-- The method `logResponse`: the custom callback when set, else `DefaultLogResponse`. -/
def Transport.logResponse (t : Loghttp.Transport) (resp : Option Response) (s : Store) : Run Unit :=
  match t.LogResponse with
  | some f => (f resp s.streams).run (s.emit [Event.LogResponse resp])
  | none => DefaultLogResponse resp (s.emit [Event.DefaultLogResponse resp])

/-- The method `transport`: the configured transport, else `http.DefaultTransport` as it
is at the time of the call. -/
def Transport.transport (g : Globals) (t : Loghttp.Transport) : Option RoundTripper :=
  match t.Transport with
  | some rt => some rt
  | none => g.httpDefaultTransport

/-- The state of the stream behind a body field. -/
def Store.bodyOf (s : Store) (body : Option Nat) : Option Stream :=
  body.map (fun a => s.streams a)

/-- The body of the method `RoundTrip`, with the call of `RoundTrip` on an interface
value as a parameter: tag the request with the current time, log it, delegate, return
the pair at once on error, else log the response and return the pair. The request
delegated is the one behind the pointer the request logger was handed (`req2`). -/
def Transport.RoundTripVia (call : Option RoundTripper → Request → Store → Run Result)
    (g : Globals) (t : Loghttp.Transport) (req : Request) (s : Store) : Run Result :=
  let ctx := Context.WithValue req.Context ContextKeyRequestStart (ContextValue.time s.now)
  let req1 := req.WithContext ctx
  match t.logRequest req1 s with
  | Run.panicked s1 => Run.panicked s1
  | Run.exhausted => Run.exhausted
  | Run.done req2 s1 =>
    match call (t.transport g) req2 s1 with
    | Run.panicked s2 => Run.panicked s2
    | Run.exhausted => Run.exhausted
    | Run.done (resp, err) s2 =>
      if err.isSome then Run.done (resp, err) s2
      else
        match t.logResponse resp s2 with
        | Run.panicked s3 => Run.panicked s3
        | Run.exhausted => Run.exhausted
        | Run.done _ s3 => Run.done (resp, err) s3

/-- A call of `RoundTrip` on an interface value, as the trace shows it: the call with the
request and the state of its body, the callee's own events, and the return with the pair
when the callee returns. -/
def observe (run : Request → Store → Run Result) (req : Request) (s : Store) : Run Result :=
  match run req (s.emit [Event.RoundTripCall req (s.bodyOf req.Body)]) with
  | Run.done r s1 => Run.done r (s1.emit [Event.RoundTripReturn r.1 r.2])
  | Run.panicked s1 => Run.panicked s1
  | Run.exhausted => Run.exhausted

/-- Call of `RoundTrip` on an `http.RoundTripper` value that may enter at most `depth`
nested logging transports. A nil interface panics; a transport outside this package is
run as the effect it is; a `*Transport` runs the method `RoundTrip`. -/
def callRoundTrip : Nat → Globals → Option RoundTripper → Request → Store → Run Result
  | _, _, none, _, s => Run.panicked s
  | _, _, some (RoundTripper.base exec), req, s =>
    observe (fun r st => (exec r st.streams).run st) req s
  | 0, _, some (RoundTripper.logging _ _ _), _, _ => Run.exhausted
  | depth + 1, g, some (RoundTripper.logging tr lrq lrs), req, s =>
    observe (Transport.RoundTripVia (callRoundTrip depth g) g ⟨tr, lrq, lrs⟩) req s

/-- The method `(*Transport).RoundTrip`, entering at most `depth` further logging
transports below this one. -/
def Transport.RoundTrip (depth : Nat) (g : Globals) (t : Loghttp.Transport) (req : Request)
    (s : Store) : Run Result :=
  Transport.RoundTripVia (callRoundTrip depth g) g t req s

/-! ## Package initialisation -/

/-- Initialisation of package `loghttp`: `DefaultTransport` becomes a `Transport` whose
inner transport is the value `http.DefaultTransport` has at that moment. -/
def loghttpInit (g : Globals) : Globals :=
  { g with DefaultTransport := { Transport := g.httpDefaultTransport, LogRequest := none, LogResponse := none } }

/-- The function `init` of package `global`: `http.DefaultTransport = loghttp.DefaultTransport`. -/
def init (g : Globals) : Globals :=
  { g with httpDefaultTransport := some g.DefaultTransport.toRoundTripper }

/-! ## Observing runs and traces -/

/-- The store a run ends in, whether it returned or panicked. -/
def Run.final? {α : Type} : Run α → Option Store
  | Run.done _ s => some s
  | Run.panicked s => some s
  | Run.exhausted => none

/-- The value a run returned. -/
def Run.value? {α : Type} : Run α → Option α
  | Run.done a _ => some a
  | _ => none

/-- Calls of a request logger (custom or default). -/
def Event.isRequestLog : Event → Bool
  | Event.LogRequest _ => true
  | Event.DefaultLogRequest _ => true
  | _ => false

/-- Calls of a response logger (custom or default). -/
def Event.isResponseLog : Event → Bool
  | Event.LogResponse _ => true
  | Event.DefaultLogResponse _ => true
  | _ => false

/-- Events that are not calls: lines handed to package `log` and outside activity. -/
def Event.isOutput : Event → Bool
  | Event.Printf _ _ => true
  | Event.Println _ => true
  | Event.Foreign _ => true
  | _ => false

/-- The request as `RoundTrip` tags it: same fields, context extended by the current
time under `ContextKeyRequestStart`. -/
def tagged (req : Request) (s : Store) : Request :=
  req.WithContext (Context.WithValue req.Context ContextKeyRequestStart (ContextValue.time s.now))

/-- The call event of the request logger a transport uses. -/
def Transport.requestLogCall (t : Loghttp.Transport) (req : Request) : Event :=
  match t.LogRequest with
  | some _ => Event.LogRequest req
  | none => Event.DefaultLogRequest req

/-- The call event of the response logger a transport uses. -/
def Transport.responseLogCall (t : Loghttp.Transport) (resp : Option Response) : Event :=
  match t.LogResponse with
  | some _ => Event.LogResponse resp
  | none => Event.DefaultLogResponse resp

/-- The lines `DefaultLogRequest` hands to package `log` for a request the reading of
whose body had the outcome `rd`. -/
def requestLines (req : Request) (rd : String × Bool) : List Event :=
  Event.Printf "--> %s %s" [Arg.str req.Method, Arg.str req.URL] ::
    ((if rd.2 then [Event.Println "Run ioutil.ReadAll(resp.Body) failed"] else []) ++
      [Event.Printf "<-- Header:\n %s\n" [Arg.header req.Header],
       Event.Printf "<-- Body:\n %s\n" [Arg.bytes rd.1]])

/-- The lines `DefaultLogResponse` hands to package `log` for a response with originating
request `rq` the reading of whose body had the outcome `rd`. -/
def responseLines (r : Response) (rq : Request) (rd : String × Bool) : List Event :=
  (if rd.2 then [Event.Println "Run ioutil.ReadAll(resp.Body) failed"] else []) ++
    (Event.Printf "<-- %d %s" [Arg.int r.StatusCode, Arg.str rq.URL] ::
      (if isTime (rq.Context.Value ContextKeyRequestStart) then
        [Event.Printf "<-- Body:\n %s\n" [Arg.bytes rd.1]] else []))

/-- The store a run ends in, or `d` when it does not end. -/
def Run.storeOr {α : Type} (r : Run α) (d : Store) : Store :=
  match r with
  | Run.done _ s => s
  | Run.panicked s => s
  | Run.exhausted => d

/-! ## Sample transports, requests and stores -/

/-- An outside transport that answers 200, with body stream 7 and the request it was
given as originating request. -/
def ok200 : Request → Streams → Effect Result :=
  fun req st => ⟨st, ["exchange"], some (some ⟨200, some 7, some req⟩, none)⟩

/-- An outside transport that fails to connect. -/
def refused : Request → Streams → Effect Result :=
  fun _ st => ⟨st, ["dial"], some (none, some "connection refused")⟩

/-- Streams: address 3 holds a request body, address 7 a response body of package
`net/http`. -/
def sampleStreams : Streams :=
  fun a => if a = 7 then ⟨[("ok", false)], false, false, true⟩
    else if a = 3 then ⟨[("payload", false)], false, false, false⟩
    else ⟨[], false, false, false⟩

/-- A store with an empty trace. -/
def sampleStore : Store := ⟨sampleStreams, 42, []⟩

/-- A POST request with a body. -/
def samplePost : Request := ⟨"POST", "http://example.com/", [("Content-Type", ["text/plain"])], some 3, []⟩

/-- A GET request as `client.Get` builds it: the body is nil. -/
def sampleGet : Request := ⟨"GET", "http://www.example.com/", [], none, []⟩

/-- A custom response logger that only notes the status and leaves all streams alone. -/
def statusOnly : Option Response → Streams → Effect Unit :=
  fun _ st => ⟨st, ["status"], some ()⟩

/-- An outside transport (a stub, say) that answers 200 with a response whose originating
request is one it made up itself, not the request it was given. -/
def detached : Request → Streams → Effect Result :=
  fun _ st => ⟨st, ["stub"], some (some ⟨200, some 7, some ⟨"GET", "http://stub/", [], none, []⟩⟩, none)⟩

/-- An outside transport that answers 404. -/
def notFound : Request → Streams → Effect Result :=
  fun req st => ⟨st, ["lookup"], some (some ⟨404, some 7, some req⟩, none)⟩

/-- A custom request logger that only notes the method: it leaves the request and all
streams alone. -/
def methodOnly : Request → Streams → Effect Request :=
  fun req st => ⟨st, ["method"], some req⟩

/-- A custom request logger that reads the body to its end and puts a fresh reader over
the bytes read (at address 5) in its place, as a read-and-restore logger does. -/
def restoring : Request → Streams → Effect Request :=
  fun req st =>
    match req.Body with
    | none => ⟨st, ["no body"], some req⟩
    | some a =>
      ⟨Function.update (Function.update st a (st a).ReadAll.2) 5
          ⟨[(st a).ReadAll.1], false, false, false⟩,
        ["body"], some { req with Body := some 5 }⟩

/-- Package variables after `loghttp` was initialised while `http.DefaultTransport` was
`ok200`. -/
def sampleGlobals : Globals :=
  loghttpInit ⟨some (RoundTripper.base ok200), ⟨none, none, none⟩⟩

/-- The same, with `http.DefaultTransport` reassigned to `notFound` afterwards. -/
def reassignedGlobals : Globals :=
  { sampleGlobals with httpDefaultTransport := some (RoundTripper.base notFound) }

/-! # Theorems -/

/-! ## Basic facts about the store, outside code and the default loggers -/

@[simp] theorem Store.emit_trace (s : Store) (es : List Event) :
    (s.emit es).trace = s.trace ++ es := rfl

@[simp] theorem Store.emit_streams (s : Store) (es : List Event) :
    (s.emit es).streams = s.streams := rfl

@[simp] theorem Store.emit_now (s : Store) (es : List Event) :
    (s.emit es).now = s.now := rfl

@[simp] theorem Store.setStream_trace (s : Store) (a : Nat) (b : Stream) :
    (s.setStream a b).trace = s.trace := rfl

@[simp] theorem Store.setStream_streams (s : Store) (a : Nat) (b : Stream) :
    (s.setStream a b).streams = Function.update s.streams a b := rfl

theorem Effect.run_final {α : Type} (e : Effect α) (s : Store) :
    ∃ sF, (e.run s).final? = some sF ∧
      sF.trace = s.trace ++ e.emitted.map Event.Foreign ∧ sF.streams = e.streams := by
  unfold Effect.run
  cases e.result <;> exact ⟨_, rfl, rfl, rfl⟩

theorem Effect.run_done {α : Type} (e : Effect α) (s : Store) (a : α) (s1 : Store)
    (h : e.run s = Run.done a s1) :
    e.result = some a ∧ s1.trace = s.trace ++ e.emitted.map Event.Foreign ∧
      s1.streams = e.streams ∧ s1.now = s.now := by
  unfold Effect.run at h
  cases hr : e.result with
  | none => rw [hr] at h; simp at h
  | some b =>
    rw [hr] at h
    simp only [Run.done.injEq] at h
    obtain ⟨hab, hs⟩ := h
    subst hab; subst hs
    exact ⟨rfl, rfl, rfl, rfl⟩

theorem foreign_isOutput (l : List String) : ∀ e ∈ l.map Event.Foreign, e.isOutput = true := by
  intro e he
  obtain ⟨x, _, rfl⟩ := List.mem_map.mp he
  rfl

theorem requestLines_isOutput (req : Request) (rd : String × Bool) :
    ∀ e ∈ requestLines req rd, e.isOutput = true := by
  intro e he
  unfold requestLines at he
  cases hf : rd.2 <;> simp [hf] at he <;> rcases he with rfl | rfl | rfl | rfl <;> rfl

theorem responseLines_isOutput (r : Response) (rq : Request) (rd : String × Bool) :
    ∀ e ∈ responseLines r rq rd, e.isOutput = true := by
  intro e he
  unfold responseLines at he
  cases hf : rd.2 <;> cases ht : isTime (rq.Context.Value ContextKeyRequestStart) <;>
    simp [hf, ht] at he <;> rcases he with rfl | rfl | rfl <;> rfl

theorem DefaultLogRequest_nil (req : Request) (s : Store) (h : req.Body = none) :
    DefaultLogRequest req s =
      Run.panicked (s.emit [Event.Printf "--> %s %s" [Arg.str req.Method, Arg.str req.URL]]) := by
  simp [DefaultLogRequest, h]

theorem DefaultLogRequest_body (req : Request) (s : Store) (a : Nat) (h : req.Body = some a) :
    DefaultLogRequest req s =
      Run.done () { streams := Function.update s.streams a (s.streams a).ReadAll.2,
                    now := s.now,
                    trace := s.trace ++ requestLines req (s.streams a).ReadAll.1 } := by
  cases hf : (s.streams a).ReadAll.1.2 <;>
    simp [DefaultLogRequest, h, requestLines, Store.emit, Store.setStream, hf]

theorem DefaultLogResponse_body (r : Response) (rq : Request) (a : Nat) (s : Store)
    (hq : r.Request = some rq) (hb : r.Body = some a) :
    DefaultLogResponse (some r) s =
      Run.done () { streams := Function.update s.streams a (s.streams a).ReadAll.2.Close,
                    now := s.now,
                    trace := s.trace ++ responseLines r rq (s.streams a).ReadAll.1 } := by
  cases hf : (s.streams a).ReadAll.1.2 <;>
    cases ht : isTime (rq.Context.Value ContextKeyRequestStart) <;>
    simp [DefaultLogResponse, hq, hb, responseLines, Store.emit, Store.setStream, hf, ht]

/-! ## Shape of what one logging layer appends -/

theorem logRequest_shape (t : Loghttp.Transport) (req : Request) (s : Store) :
    ∃ sF q, (t.logRequest req s).final? = some sF ∧
      sF.trace = s.trace ++ t.requestLogCall req :: q ∧ ∀ e ∈ q, e.isOutput = true := by
  unfold Transport.logRequest Transport.requestLogCall
  cases t.LogRequest with
  | some f =>
    obtain ⟨sF, h1, h2, _⟩ := Effect.run_final (f req s.streams) (s.emit [Event.LogRequest req])
    exact ⟨sF, _, h1, by simpa using h2, foreign_isOutput _⟩
  | none =>
    cases hb : req.Body with
    | none =>
      dsimp only
      rw [DefaultLogRequest_nil _ _ hb]
      refine ⟨_, [Event.Printf "--> %s %s" [Arg.str req.Method, Arg.str req.URL]], rfl,
        by simp, ?_⟩
      intro e he
      simp at he
      subst he; rfl
    | some a =>
      dsimp only
      rw [DefaultLogRequest_body _ _ a hb]
      exact ⟨_, requestLines req (s.streams a).ReadAll.1, rfl, by simp,
        requestLines_isOutput _ _⟩

theorem logResponse_shape (t : Loghttp.Transport) (resp : Option Response) (s : Store) :
    ∃ sF q, (t.logResponse resp s).final? = some sF ∧
      sF.trace = s.trace ++ t.responseLogCall resp :: q ∧ ∀ e ∈ q, e.isOutput = true := by
  unfold Transport.logResponse Transport.responseLogCall
  cases t.LogResponse with
  | some f =>
    obtain ⟨sF, h1, h2, _⟩ := Effect.run_final (f resp s.streams) (s.emit [Event.LogResponse resp])
    exact ⟨sF, _, h1, by simpa using h2, foreign_isOutput _⟩
  | none =>
    cases resp with
    | none => exact ⟨_, [], rfl, by simp, by simp⟩
    | some r =>
      cases hq : r.Request with
      | none =>
        dsimp only [DefaultLogResponse]
        rw [hq]
        exact ⟨_, [], rfl, by simp, by simp⟩
      | some rq =>
        cases hb : r.Body with
        | none =>
          dsimp only [DefaultLogResponse]
          rw [hq]
          dsimp only
          rw [hb]
          exact ⟨_, [], rfl, by simp, by simp⟩
        | some a =>
          dsimp only
          rw [DefaultLogResponse_body r rq a _ hq hb]
          exact ⟨_, responseLines r rq (s.streams a).ReadAll.1, rfl, by simp,
            responseLines_isOutput _ _ _⟩

theorem logRequest_not_exhausted (t : Loghttp.Transport) (req : Request) (s : Store) :
    t.logRequest req s ≠ Run.exhausted := by
  obtain ⟨sF, _, h, _⟩ := logRequest_shape t req s
  intro hc
  rw [hc] at h
  simp [Run.final?] at h

theorem logResponse_not_exhausted (t : Loghttp.Transport) (resp : Option Response) (s : Store) :
    t.logResponse resp s ≠ Run.exhausted := by
  obtain ⟨sF, _, h, _⟩ := logResponse_shape t resp s
  intro hc
  rw [hc] at h
  simp [Run.final?] at h

/-! ## The round trip, outcome by outcome -/

theorem RoundTripVia_logRequest_panicked
    (call : Option RoundTripper → Request → Store → Run Result)
    (g : Globals) (t : Loghttp.Transport) (req : Request) (s s1 : Store)
    (h1 : t.logRequest (tagged req s) s = Run.panicked s1) :
    Transport.RoundTripVia call g t req s = Run.panicked s1 := by
  unfold Transport.RoundTripVia
  unfold tagged at h1
  simp only [h1]

theorem RoundTripVia_inner_panicked
    (call : Option RoundTripper → Request → Store → Run Result)
    (g : Globals) (t : Loghttp.Transport) (req : Request) (s s1 s2 : Store) (req2 : Request)
    (h1 : t.logRequest (tagged req s) s = Run.done req2 s1)
    (h2 : call (t.transport g) req2 s1 = Run.panicked s2) :
    Transport.RoundTripVia call g t req s = Run.panicked s2 := by
  unfold Transport.RoundTripVia
  unfold tagged at h1
  simp only [h1, h2]

theorem RoundTripVia_inner_exhausted
    (call : Option RoundTripper → Request → Store → Run Result)
    (g : Globals) (t : Loghttp.Transport) (req : Request) (s s1 : Store) (req2 : Request)
    (h1 : t.logRequest (tagged req s) s = Run.done req2 s1)
    (h2 : call (t.transport g) req2 s1 = Run.exhausted) :
    Transport.RoundTripVia call g t req s = Run.exhausted := by
  unfold Transport.RoundTripVia
  unfold tagged at h1
  simp only [h1, h2]

theorem RoundTripVia_inner_error
    (call : Option RoundTripper → Request → Store → Run Result)
    (g : Globals) (t : Loghttp.Transport) (req : Request) (s s1 s2 : Store) (req2 : Request)
    (resp : Option Response) (e : String)
    (h1 : t.logRequest (tagged req s) s = Run.done req2 s1)
    (h2 : call (t.transport g) req2 s1 = Run.done (resp, some e) s2) :
    Transport.RoundTripVia call g t req s = Run.done (resp, some e) s2 := by
  unfold Transport.RoundTripVia
  unfold tagged at h1
  simp only [h1, h2]
  simp

theorem RoundTripVia_inner_success
    (call : Option RoundTripper → Request → Store → Run Result)
    (g : Globals) (t : Loghttp.Transport) (req : Request) (s s1 s2 : Store) (req2 : Request)
    (resp : Option Response)
    (h1 : t.logRequest (tagged req s) s = Run.done req2 s1)
    (h2 : call (t.transport g) req2 s1 = Run.done (resp, none) s2) :
    Transport.RoundTripVia call g t req s =
      match t.logResponse resp s2 with
      | Run.panicked s3 => Run.panicked s3
      | Run.exhausted => Run.exhausted
      | Run.done _ s3 => Run.done (resp, none) s3 := by
  unfold Transport.RoundTripVia
  unfold tagged at h1
  simp only [h1, h2]
  simp

/-! ## Traces only grow -/

theorem logRequest_done_trace (t : Loghttp.Transport) (req : Request) (s s1 : Store) (req2 : Request)
    (h : t.logRequest req s = Run.done req2 s1) :
    ∃ q, s1.trace = s.trace ++ t.requestLogCall req :: q ∧ ∀ e ∈ q, e.isOutput = true := by
  obtain ⟨sF, q, hF, ht, hq⟩ := logRequest_shape t req s
  rw [h] at hF
  simp only [Run.final?, Option.some.injEq] at hF
  subst hF
  exact ⟨q, ht, hq⟩

theorem logRequest_panicked_trace (t : Loghttp.Transport) (req : Request) (s s1 : Store)
    (h : t.logRequest req s = Run.panicked s1) :
    ∃ q, s1.trace = s.trace ++ t.requestLogCall req :: q ∧ ∀ e ∈ q, e.isOutput = true := by
  obtain ⟨sF, q, hF, ht, hq⟩ := logRequest_shape t req s
  rw [h] at hF
  simp only [Run.final?, Option.some.injEq] at hF
  subst hF
  exact ⟨q, ht, hq⟩

theorem logResponse_final_trace (t : Loghttp.Transport) (resp : Option Response) (s sF : Store)
    (h : (t.logResponse resp s).final? = some sF) :
    ∃ q, sF.trace = s.trace ++ t.responseLogCall resp :: q ∧ ∀ e ∈ q, e.isOutput = true := by
  obtain ⟨sF1, q, hF, ht, hq⟩ := logResponse_shape t resp s
  rw [h] at hF
  simp only [Option.some.injEq] at hF
  subst hF
  exact ⟨q, ht, hq⟩

theorem RoundTripVia_grows (call : Option RoundTripper → Request → Store → Run Result)
    (hcall : ∀ rt req s sF, (call rt req s).final? = some sF → ∃ mid, sF.trace = s.trace ++ mid)
    (g : Globals) (t : Loghttp.Transport) (req : Request) (s sF : Store)
    (hF : (Transport.RoundTripVia call g t req s).final? = some sF) :
    ∃ mid, sF.trace = s.trace ++ mid := by
  cases h1 : t.logRequest (tagged req s) s with
  | exhausted => exact absurd h1 (logRequest_not_exhausted _ _ _)
  | panicked s1 =>
    rw [RoundTripVia_logRequest_panicked call g t req s s1 h1] at hF
    simp only [Run.final?, Option.some.injEq] at hF
    subst hF
    obtain ⟨q, hq, _⟩ := logRequest_panicked_trace _ _ _ _ h1
    exact ⟨_, hq⟩
  | done req2 s1 =>
    obtain ⟨q, hq, _⟩ := logRequest_done_trace _ _ _ _ _ h1
    cases h2 : call (t.transport g) req2 s1 with
    | exhausted =>
      rw [RoundTripVia_inner_exhausted call g t req s s1 req2 h1 h2] at hF
      simp [Run.final?] at hF
    | panicked s2 =>
      rw [RoundTripVia_inner_panicked call g t req s s1 s2 req2 h1 h2] at hF
      simp only [Run.final?, Option.some.injEq] at hF
      subst hF
      obtain ⟨mid, hmid⟩ := hcall _ _ _ s2 (by rw [h2]; rfl)
      exact ⟨_, by rw [hmid, hq, List.append_assoc]⟩
    | done r s2 =>
      obtain ⟨mid, hmid⟩ := hcall _ _ _ s2 (by rw [h2]; rfl)
      obtain ⟨resp, err⟩ := r
      cases err with
      | some e =>
        rw [RoundTripVia_inner_error call g t req s s1 s2 req2 resp e h1 h2] at hF
        simp only [Run.final?, Option.some.injEq] at hF
        subst hF
        exact ⟨_, by rw [hmid, hq, List.append_assoc]⟩
      | none =>
        rw [RoundTripVia_inner_success call g t req s s1 s2 req2 resp h1 h2] at hF
        have h3 : (t.logResponse resp s2).final? = some sF := by
          cases h3 : t.logResponse resp s2 with
          | exhausted => exact absurd h3 (logResponse_not_exhausted _ _ _)
          | panicked s3 => rw [h3] at hF; exact hF
          | done u3 s3 => rw [h3] at hF; exact hF
        obtain ⟨q2, hq2, _⟩ := logResponse_final_trace _ _ _ _ h3
        exact ⟨_, by rw [hq2, hmid, hq, List.append_assoc, List.append_assoc]⟩

theorem observe_done (run : Request → Store → Run Result) (req : Request) (s sF : Store)
    (r : Result) (h : observe run req s = Run.done r sF) :
    ∃ s1, run req (s.emit [Event.RoundTripCall req (s.bodyOf req.Body)]) = Run.done r s1 ∧
      sF = s1.emit [Event.RoundTripReturn r.1 r.2] := by
  unfold observe at h
  cases hr : run req (s.emit [Event.RoundTripCall req (s.bodyOf req.Body)]) with
  | exhausted => rw [hr] at h; simp at h
  | panicked s1 => rw [hr] at h; simp at h
  | done r1 s1 =>
    rw [hr] at h
    simp only [Run.done.injEq] at h
    obtain ⟨h1, h2⟩ := h
    subst h1
    exact ⟨s1, rfl, h2.symm⟩

theorem observe_final (run : Request → Store → Run Result) (req : Request) (s sF : Store)
    (h : (observe run req s).final? = some sF) :
    ∃ s1 tail, (run req (s.emit [Event.RoundTripCall req (s.bodyOf req.Body)])).final? = some s1 ∧
      sF.trace = s1.trace ++ tail := by
  unfold observe at h
  cases hr : run req (s.emit [Event.RoundTripCall req (s.bodyOf req.Body)]) with
  | exhausted => rw [hr] at h; simp [Run.final?] at h
  | panicked s1 =>
    rw [hr] at h
    simp only [Run.final?, Option.some.injEq] at h
    subst h
    exact ⟨_, [], rfl, by simp⟩
  | done r1 s1 =>
    rw [hr] at h
    simp only [Run.final?, Option.some.injEq] at h
    subst h
    exact ⟨s1, [Event.RoundTripReturn r1.1 r1.2], rfl, rfl⟩

theorem observe_final_trace (run : Request → Store → Run Result) (req : Request) (s sF : Store)
    (hrun : ∀ s0 s1, (run req s0).final? = some s1 → ∃ mid, s1.trace = s0.trace ++ mid)
    (h : (observe run req s).final? = some sF) :
    ∃ rest, sF.trace = s.trace ++ Event.RoundTripCall req (s.bodyOf req.Body) :: rest := by
  obtain ⟨s1, tail, h1, h2⟩ := observe_final run req s sF h
  obtain ⟨mid, hmid⟩ := hrun _ _ h1
  refine ⟨mid ++ tail, ?_⟩
  rw [h2, hmid]
  simp

theorem exec_grows (exec : Request → Streams → Effect Result) (req : Request) (s0 s1 : Store)
    (h : ((exec req s0.streams).run s0).final? = some s1) :
    ∃ mid, s1.trace = s0.trace ++ mid := by
  obtain ⟨sF, hF, ht, _⟩ := Effect.run_final (exec req s0.streams) s0
  rw [h] at hF
  simp only [Option.some.injEq] at hF
  subst hF
  exact ⟨_, ht⟩

theorem callRoundTrip_base (depth : Nat) (g : Globals)
    (exec : Request → Streams → Effect Result) (req : Request) (s : Store) :
    callRoundTrip depth g (some (RoundTripper.base exec)) req s =
      observe (fun r st => (exec r st.streams).run st) req s := by
  cases depth <;> rfl

theorem callRoundTrip_logging (depth : Nat) (g : Globals) (t : Loghttp.Transport)
    (req : Request) (s : Store) :
    callRoundTrip (depth + 1) g (some t.toRoundTripper) req s =
      observe (Transport.RoundTrip depth g t) req s := by
  rfl

theorem callRoundTrip_entry (depth : Nat) (g : Globals) :
    ∀ (rt : RoundTripper) (req : Request) (s sF : Store),
      (callRoundTrip depth g (some rt) req s).final? = some sF →
      ∃ rest, sF.trace = s.trace ++ Event.RoundTripCall req (s.bodyOf req.Body) :: rest := by
  induction depth with
  | zero =>
    intro rt req s sF hF
    match rt with
    | RoundTripper.base exec =>
      rw [callRoundTrip_base] at hF
      exact observe_final_trace _ req s sF (fun s0 s1 h => exec_grows exec req s0 s1 h) hF
    | RoundTripper.logging _ _ _ => simp [callRoundTrip, Run.final?] at hF
  | succ d ih =>
    intro rt req s sF hF
    match rt with
    | RoundTripper.base exec =>
      rw [callRoundTrip_base] at hF
      exact observe_final_trace _ req s sF (fun s0 s1 h => exec_grows exec req s0 s1 h) hF
    | RoundTripper.logging tr lq ls =>
      refine observe_final_trace _ req s sF (fun s0 s1 h => ?_) hF
      refine RoundTripVia_grows (callRoundTrip d g) ?_ g ⟨tr, lq, ls⟩ req s0 s1 h
      intro rt2 req2 s2 sF2 h2
      match rt2 with
      | none =>
        have h3 : sF2 = s2 := by
          cases d <;> simp [callRoundTrip, Run.final?] at h2 <;> exact h2.symm
        exact ⟨[], by simp [h3]⟩
      | some rt3 =>
        obtain ⟨rest, hrest⟩ := ih rt3 req2 s2 sF2 h2
        exact ⟨_, hrest⟩

theorem callRoundTrip_grows (depth : Nat) (g : Globals) (rt : Option RoundTripper)
    (req : Request) (s sF : Store) (hF : (callRoundTrip depth g rt req s).final? = some sF) :
    ∃ mid, sF.trace = s.trace ++ mid := by
  match rt with
  | none =>
    have h3 : sF = s := by
      cases depth <;> simp [callRoundTrip, Run.final?] at hF <;> exact hF.symm
    exact ⟨[], by simp [h3]⟩
  | some rt3 =>
    obtain ⟨rest, hrest⟩ := callRoundTrip_entry depth g rt3 req s sF hF
    exact ⟨_, hrest⟩

/-! ## No response logging on the error path -/

theorem isOutput_not_responseLog (e : Event) (h : e.isOutput = true) : e.isResponseLog = false := by
  cases e <;> simp_all [Event.isOutput, Event.isResponseLog]

theorem isOutput_not_requestLog (e : Event) (h : e.isOutput = true) : e.isRequestLog = false := by
  cases e <;> simp_all [Event.isOutput, Event.isRequestLog]

theorem countP_responseLog_output (q : List Event) (h : ∀ e ∈ q, e.isOutput = true) :
    q.countP Event.isResponseLog = 0 := by
  rw [List.countP_eq_zero]
  intro e he
  simp [isOutput_not_responseLog e (h e he)]

theorem countP_requestLog_output (q : List Event) (h : ∀ e ∈ q, e.isOutput = true) :
    q.countP Event.isRequestLog = 0 := by
  rw [List.countP_eq_zero]
  intro e he
  simp [isOutput_not_requestLog e (h e he)]

theorem requestLogCall_not_responseLog (t : Loghttp.Transport) (req : Request) :
    (t.requestLogCall req).isResponseLog = false := by
  unfold Transport.requestLogCall
  cases t.LogRequest <;> rfl

theorem callRoundTrip_base_done (depth : Nat) (g : Globals)
    (exec : Request → Streams → Effect Result) (req : Request) (s sF : Store) (r : Result)
    (h : callRoundTrip depth g (some (RoundTripper.base exec)) req s = Run.done r sF) :
    (exec req s.streams).result = some r ∧
      sF.streams = (exec req s.streams).streams ∧
      sF.trace = s.trace ++ Event.RoundTripCall req (s.bodyOf req.Body) ::
        ((exec req s.streams).emitted.map Event.Foreign ++ [Event.RoundTripReturn r.1 r.2]) := by
  rw [callRoundTrip_base] at h
  obtain ⟨s1, hr, hs⟩ := observe_done _ req s sF r h
  obtain ⟨h1, h2, h3, _⟩ := Effect.run_done _ _ _ _ hr
  subst hs
  refine ⟨h1, h3, ?_⟩
  simp [h2]

theorem RoundTripVia_error_cases (call : Option RoundTripper → Request → Store → Run Result)
    (g : Globals) (t : Loghttp.Transport) (req : Request) (s sF : Store)
    (resp : Option Response) (e : String)
    (h : Transport.RoundTripVia call g t req s = Run.done (resp, some e) sF) :
    ∃ req2 s1, t.logRequest (tagged req s) s = Run.done req2 s1 ∧
      call (t.transport g) req2 s1 = Run.done (resp, some e) sF := by
  cases h1 : t.logRequest (tagged req s) s with
  | exhausted => exact absurd h1 (logRequest_not_exhausted _ _ _)
  | panicked s1 =>
    rw [RoundTripVia_logRequest_panicked call g t req s s1 h1] at h
    simp at h
  | done req2 s1 =>
    refine ⟨req2, s1, rfl, ?_⟩
    cases h2 : call (t.transport g) req2 s1 with
    | exhausted =>
      rw [RoundTripVia_inner_exhausted call g t req s s1 req2 h1 h2] at h
      simp at h
    | panicked s2 =>
      rw [RoundTripVia_inner_panicked call g t req s s1 s2 req2 h1 h2] at h
      simp at h
    | done r s2 =>
      obtain ⟨resp2, err2⟩ := r
      cases err2 with
      | some e2 =>
        rw [RoundTripVia_inner_error call g t req s s1 s2 req2 resp2 e2 h1 h2] at h
        exact h
      | none =>
        rw [RoundTripVia_inner_success call g t req s s1 s2 req2 resp2 h1 h2] at h
        cases h3 : t.logResponse resp2 s2 <;> rw [h3] at h <;> simp at h

theorem callRoundTrip_error_no_responseLog (depth : Nat) (g : Globals) :
    ∀ (rt : Option RoundTripper) (req : Request) (s sF : Store) (resp : Option Response)
      (e : String), callRoundTrip depth g rt req s = Run.done (resp, some e) sF →
      sF.trace.countP Event.isResponseLog = s.trace.countP Event.isResponseLog := by
  have base : ∀ (d : Nat) (exec : Request → Streams → Effect Result) (req : Request)
      (s sF : Store) (r : Result),
      callRoundTrip d g (some (RoundTripper.base exec)) req s = Run.done r sF →
      sF.trace.countP Event.isResponseLog = s.trace.countP Event.isResponseLog := by
    intro d exec req s sF r h
    obtain ⟨_, _, ht⟩ := callRoundTrip_base_done d g exec req s sF r h
    rw [ht]
    simp only [List.countP_append, List.countP_cons, List.countP_nil]
    rw [countP_responseLog_output _ (foreign_isOutput _)]
    simp [Event.isResponseLog]
  induction depth with
  | zero =>
    intro rt req s sF resp e h
    match rt with
    | none => simp [callRoundTrip] at h
    | some (RoundTripper.base exec) => exact base _ exec req s sF _ h
    | some (RoundTripper.logging _ _ _) => simp [callRoundTrip] at h
  | succ d ih =>
    intro rt req s sF resp e h
    match rt with
    | none => simp [callRoundTrip] at h
    | some (RoundTripper.base exec) => exact base _ exec req s sF _ h
    | some (RoundTripper.logging tr lq ls) =>
      obtain ⟨sR, hR, hs⟩ := observe_done _ req s sF _ h
      obtain ⟨req2, s1, h1, h2⟩ := RoundTripVia_error_cases (callRoundTrip d g) g ⟨tr, lq, ls⟩
        req _ sR resp e hR
      obtain ⟨q, hq, hqo⟩ := logRequest_done_trace _ _ _ _ _ h1
      rw [hs, Store.emit_trace, List.countP_append, ih _ _ _ _ _ _ h2, hq]
      simp only [Store.emit_trace, List.countP_append, List.countP_cons, List.countP_nil]
      rw [countP_responseLog_output _ hqo, requestLogCall_not_responseLog]
      simp [Event.isResponseLog]

/-! ## The claims -/

/-- C1: when the inner transport's RoundTrip (called with the request `req2` the request
logger left) returns a non-nil error, `Transport.RoundTrip` returns exactly the pair the
inner transport returned, in the store the inner transport left, and between entry and
return no response logger (neither a custom `LogResponse` nor `DefaultLogResponse`) has
been called. -/
theorem RoundTrip_error_passthrough (depth : Nat) (g : Globals) (t : Loghttp.Transport)
    (req req2 : Request) (s s1 s2 : Store) (resp : Option Response) (e : String)
    (hlog : t.logRequest (tagged req s) s = Run.done req2 s1)
    (hinner : callRoundTrip depth g (t.transport g) req2 s1 = Run.done (resp, some e) s2) :
    Transport.RoundTrip depth g t req s = Run.done (resp, some e) s2 ∧
      s2.trace.countP Event.isResponseLog = s.trace.countP Event.isResponseLog := by
  refine ⟨RoundTripVia_inner_error (callRoundTrip depth g) g t req s s1 s2 req2 resp e hlog
    hinner, ?_⟩
  obtain ⟨q, hq, hqo⟩ := logRequest_done_trace _ _ _ _ _ hlog
  rw [callRoundTrip_error_no_responseLog depth g _ _ _ _ _ _ hinner, hq]
  simp only [List.countP_append, List.countP_cons, List.countP_nil]
  rw [countP_responseLog_output _ hqo, requestLogCall_not_responseLog]
  simp

/-- Witness for C1: a POST through a transport whose inner transport refuses the
connection comes back with that error, and the trace holds no response-logger call. -/
theorem RoundTrip_error_passthrough_witness :
    (Transport.RoundTrip 0 ⟨none, ⟨none, none, none⟩⟩ ⟨some (RoundTripper.base refused), none, none⟩
        samplePost sampleStore).value? = some (none, some "connection refused") ∧
    ((Transport.RoundTrip 0 ⟨none, ⟨none, none, none⟩⟩
          ⟨some (RoundTripper.base refused), none, none⟩ samplePost sampleStore).storeOr
        sampleStore).trace.countP Event.isResponseLog = 0 := by
  have h := RoundTrip_error_passthrough 0 ⟨none, ⟨none, none, none⟩⟩
    ⟨some (RoundTripper.base refused), none, none⟩ samplePost (tagged samplePost sampleStore)
    sampleStore
    ((DefaultLogRequest (tagged samplePost sampleStore)
      (sampleStore.emit [Event.DefaultLogRequest (tagged samplePost sampleStore)])).storeOr sampleStore)
    _ none "connection refused" rfl rfl
  rw [h.1]
  exact ⟨rfl, h.2⟩

/-- C2: when the inner transport returns `(resp, nil)` and `LogResponse` is a custom
callback that returns and leaves the response body as it is (neither reads nor closes it),
`Transport.RoundTrip` returns that same `resp` (hence the same status code) with a nil error,
and the body stream is in the state in which the inner transport handed it over. -/
theorem RoundTrip_success_custom_logger (depth : Nat) (g : Globals) (t : Loghttp.Transport)
    (req req2 : Request) (s s1 s2 : Store) (resp : Option Response)
    (f : Option Response → Streams → Effect Unit)
    (hlog : t.logRequest (tagged req s) s = Run.done req2 s1)
    (hinner : callRoundTrip depth g (t.transport g) req2 s1 = Run.done (resp, none) s2)
    (hf : t.LogResponse = some f)
    (hret : (f resp s2.streams).result = some ())
    (hkeep : ∀ r a, resp = some r → r.Body = some a →
      (f resp s2.streams).streams a = s2.streams a) :
    ∃ s3, Transport.RoundTrip depth g t req s = Run.done (resp, none) s3 ∧
      ∀ r a, resp = some r → r.Body = some a → s3.streams a = s2.streams a := by
  unfold Transport.RoundTrip
  rw [RoundTripVia_inner_success (callRoundTrip depth g) g t req s s1 s2 req2 resp hlog hinner]
  simp only [Transport.logResponse, hf, Effect.run, hret]
  exact ⟨_, rfl, hkeep⟩

/-- Witness for C2: a POST answered 200 and logged by a callback that leaves the body
alone returns the response with its body `ok` unread and not closed. -/
theorem RoundTrip_success_custom_logger_witness :
    ∃ s3, Transport.RoundTrip 0 ⟨none, ⟨none, none, none⟩⟩
        ⟨some (RoundTripper.base ok200), none, some statusOnly⟩ samplePost sampleStore =
          Run.done (some ⟨200, some 7, some (tagged samplePost sampleStore)⟩, none) s3 ∧
      s3.streams 7 = ⟨[("ok", false)], false, false, true⟩ := by
  obtain ⟨s3, h, hk⟩ := RoundTrip_success_custom_logger 0 ⟨none, ⟨none, none, none⟩⟩
    ⟨some (RoundTripper.base ok200), none, some statusOnly⟩ samplePost
    (tagged samplePost sampleStore) sampleStore
    ((DefaultLogRequest (tagged samplePost sampleStore)
      (sampleStore.emit [Event.DefaultLogRequest (tagged samplePost sampleStore)])).storeOr sampleStore)
    _ (some ⟨200, some 7, some (tagged samplePost sampleStore)⟩) statusOnly rfl rfl rfl rfl
    (fun _ _ _ _ => rfl)
  exact ⟨s3, h, (hk _ 7 rfl rfl).trans rfl⟩

theorem callRoundTrip_done_trace (depth : Nat) (g : Globals) (rt : Option RoundTripper)
    (req : Request) (s sF : Store) (r : Result)
    (h : callRoundTrip depth g rt req s = Run.done r sF) :
    ∃ inside, sF.trace = s.trace ++
      Event.RoundTripCall req (s.bodyOf req.Body) :: (inside ++ [Event.RoundTripReturn r.1 r.2]) := by
  have key : ∀ (run : Request → Store → Run Result),
      (∀ s0 s1, (run req s0).final? = some s1 → ∃ mid, s1.trace = s0.trace ++ mid) →
      observe run req s = Run.done r sF →
      ∃ inside, sF.trace = s.trace ++
        Event.RoundTripCall req (s.bodyOf req.Body) :: (inside ++ [Event.RoundTripReturn r.1 r.2]) := by
    intro run hrun ho
    obtain ⟨s1, h1, hs⟩ := observe_done run req s sF r ho
    obtain ⟨mid, hmid⟩ := hrun _ s1 (by rw [h1]; rfl)
    refine ⟨mid, ?_⟩
    rw [hs, Store.emit_trace, hmid]
    simp
  match depth, rt with
  | _, none => cases depth <;> simp [callRoundTrip] at h
  | d, some (RoundTripper.base exec) =>
    rw [callRoundTrip_base] at h
    exact key _ (fun s0 s1 h0 => exec_grows exec req s0 s1 h0) h
  | 0, some (RoundTripper.logging _ _ _) => simp [callRoundTrip] at h
  | d + 1, some (RoundTripper.logging tr lq ls) =>
    exact key _ (fun s0 s1 h0 => RoundTripVia_grows (callRoundTrip d g)
      (fun rt2 req2 s2 sF2 h2 => callRoundTrip_grows d g rt2 req2 s2 sF2 h2)
      g ⟨tr, lq, ls⟩ req s0 s1 h0) h

/-- C3: the events one call of `Transport.RoundTrip` appends to the trace are, in this
order: the call of the request logger (once), that logger's own output `q1`, the events
`mid` of the inner transport's RoundTrip (which starts from the store and with the request
the request logger left; when it returns, `mid` opens with its call and closes with its
return), and `tail`;
`tail` is the call of the response logger followed by its output when the inner transport
returned a nil error, and is empty in every other case. -/
theorem RoundTrip_event_order (depth : Nat) (g : Globals) (t : Loghttp.Transport)
    (req : Request) (s sF : Store)
    (hF : (Transport.RoundTrip depth g t req s).final? = some sF) :
    ∃ q1 mid tail : List Event,
      sF.trace = s.trace ++ (t.requestLogCall (tagged req s) :: q1) ++ mid ++ tail ∧
      (∀ e ∈ q1, e.isOutput = true) ∧
      ∃ s1, (t.logRequest (tagged req s) s).final? = some s1 ∧
        s1.trace = s.trace ++ (t.requestLogCall (tagged req s) :: q1) ∧
        match (t.logRequest (tagged req s) s).value? with
        | none => mid = [] ∧ tail = []
        | some req2 =>
          ∃ s2, (callRoundTrip depth g (t.transport g) req2 s1).final? = some s2 ∧
            s2.trace = s1.trace ++ mid ∧
            match (callRoundTrip depth g (t.transport g) req2 s1).value? with
            | some (resp, err) =>
              (∃ inside, mid = Event.RoundTripCall req2 (s1.bodyOf req2.Body) ::
                (inside ++ [Event.RoundTripReturn resp err])) ∧
              (err = none →
                ∃ q2, tail = t.responseLogCall resp :: q2 ∧ ∀ e ∈ q2, e.isOutput = true) ∧
              (err ≠ none → tail = [])
            | none => tail = [] := by
  unfold Transport.RoundTrip at hF
  cases h1 : t.logRequest (tagged req s) s with
  | exhausted => exact absurd h1 (logRequest_not_exhausted _ _ _)
  | panicked s1 =>
    rw [RoundTripVia_logRequest_panicked _ g t req s s1 h1] at hF
    simp only [Run.final?, Option.some.injEq] at hF
    subst hF
    obtain ⟨q, hq, hqo⟩ := logRequest_panicked_trace _ _ _ _ h1
    exact ⟨q, [], [], by simp [hq], hqo, s1, rfl, hq, rfl, rfl⟩
  | done req2 s1 =>
    obtain ⟨q, hq, hqo⟩ := logRequest_done_trace _ _ _ _ _ h1
    cases h2 : callRoundTrip depth g (t.transport g) req2 s1 with
    | exhausted =>
      rw [RoundTripVia_inner_exhausted _ g t req s s1 req2 h1 h2] at hF
      simp [Run.final?] at hF
    | panicked s2 =>
      rw [RoundTripVia_inner_panicked _ g t req s s1 s2 req2 h1 h2] at hF
      simp only [Run.final?, Option.some.injEq] at hF
      subst hF
      obtain ⟨mid, hmid⟩ := callRoundTrip_grows depth g _ _ _ s2 (by rw [h2]; rfl)
      refine ⟨q, mid, [], by simp [hmid, hq], hqo, s1, rfl, hq, ?_⟩
      dsimp only [Run.value?]
      rw [h2]
      exact ⟨s2, rfl, hmid, rfl⟩
    | done r s2 =>
      obtain ⟨inside, hin⟩ := callRoundTrip_done_trace depth g _ _ _ s2 r h2
      obtain ⟨resp, err⟩ := r
      cases err with
      | some e =>
        rw [RoundTripVia_inner_error _ g t req s s1 s2 req2 resp e h1 h2] at hF
        simp only [Run.final?, Option.some.injEq] at hF
        subst hF
        refine ⟨q, Event.RoundTripCall req2 (s1.bodyOf req2.Body) ::
          (inside ++ [Event.RoundTripReturn resp (some e)]), [], by rw [hin, hq]; simp, hqo, s1,
          rfl, hq, ?_⟩
        dsimp only [Run.value?]
        rw [h2]
        exact ⟨s2, rfl, hin, ⟨inside, rfl⟩, fun hc => by simp at hc, fun _ => rfl⟩
      | none =>
        rw [RoundTripVia_inner_success _ g t req s s1 s2 req2 resp h1 h2] at hF
        have h3 : (t.logResponse resp s2).final? = some sF := by
          cases h3 : t.logResponse resp s2 with
          | exhausted => exact absurd h3 (logResponse_not_exhausted _ _ _)
          | panicked s3 => rw [h3] at hF; exact hF
          | done u3 s3 => rw [h3] at hF; exact hF
        obtain ⟨q2, hq2, hq2o⟩ := logResponse_final_trace _ _ _ _ h3
        refine ⟨q, Event.RoundTripCall req2 (s1.bodyOf req2.Body) ::
          (inside ++ [Event.RoundTripReturn resp none]), t.responseLogCall resp :: q2,
          by simp [hq2, hin, hq], hqo, s1, rfl, hq, ?_⟩
        dsimp only [Run.value?]
        rw [h2]
        exact ⟨s2, rfl, hin, ⟨inside, rfl⟩, fun _ => ⟨q2, rfl, hq2o⟩, fun hc => absurd rfl hc⟩

/-- Witness for C3: the trace of a successful POST with the default loggers over an outside
transport. -/
theorem RoundTrip_event_order_witness :
    ∃ q1 mid tail : List Event,
      ((Transport.RoundTrip 0 ⟨none, ⟨none, none, none⟩⟩
          ⟨some (RoundTripper.base ok200), none, none⟩ samplePost sampleStore).storeOr
        sampleStore).trace =
        [] ++ (Event.DefaultLogRequest (tagged samplePost sampleStore) :: q1) ++ mid ++ tail ∧
      (∀ e ∈ q1, e.isOutput = true) :=
  let ⟨q1, mid, tail, h, hq, _⟩ := RoundTrip_event_order 0 ⟨none, ⟨none, none, none⟩⟩
    ⟨some (RoundTripper.base ok200), none, none⟩ samplePost sampleStore
    ((Transport.RoundTrip 0 ⟨none, ⟨none, none, none⟩⟩
      ⟨some (RoundTripper.base ok200), none, none⟩ samplePost sampleStore).storeOr sampleStore) rfl
  ⟨q1, mid, tail, h, hq⟩

/-- C4, as stated, fails: an inner transport that returns a response whose originating
request is not the tagged request (here a stub's own request, with an empty context) makes
a successful round trip end with no time under `ContextKeyRequestStart` in
`resp.Request.Context()`, and `DefaultLogResponse` prints the status line without the body. -/
theorem marker_absent_counterexample :
    (Transport.RoundTrip 0 ⟨none, ⟨none, none, none⟩⟩ ⟨some (RoundTripper.base detached), none, none⟩
        samplePost sampleStore).value? =
      some (some ⟨200, some 7, some ⟨"GET", "http://stub/", [], none, []⟩⟩, none) ∧
    isTime ((Request.Context ⟨"GET", "http://stub/", [], none, []⟩).Value ContextKeyRequestStart)
      = false ∧
    ((Transport.RoundTrip 0 ⟨none, ⟨none, none, none⟩⟩ ⟨some (RoundTripper.base detached), none, none⟩
        samplePost sampleStore).storeOr sampleStore).trace.drop 7 =
      [Event.DefaultLogResponse (some ⟨200, some 7, some ⟨"GET", "http://stub/", [], none, []⟩⟩),
       Event.Printf "<-- %d %s" [Arg.int 200, Arg.str "http://stub/"]] := by
  refine ⟨rfl, rfl, rfl⟩

theorem tagged_isTime (req : Request) (s : Store) :
    isTime ((tagged req s).Context.Value ContextKeyRequestStart) = true := by
  simp [tagged, Request.WithContext, Request.Context, Context.WithValue, Context.Value,
    List.lookup, isTime]

theorem isTime_lookup_append (k : contextKey) (extra base : Context)
    (hextra : ∀ v, (k, v) ∈ extra → isTime (some v) = true)
    (hbase : isTime (List.lookup k base) = true) :
    isTime (List.lookup k (extra ++ base)) = true := by
  induction extra with
  | nil => simpa using hbase
  | cons p rest ih =>
    obtain ⟨k1, v1⟩ := p
    have hrest : ∀ v, (k, v) ∈ rest → isTime (some v) = true :=
      fun v hv => hextra v (List.mem_cons_of_mem _ hv)
    by_cases hk : k = k1
    · subst hk
      simp only [List.cons_append, List.lookup_cons, beq_self_eq_true]
      exact hextra v1 (List.mem_cons_self _ _)
    · have hb : (k == k1) = false := by simpa using hk
      simp only [List.cons_append, List.lookup_cons, hb]
      exact ih hrest

/-- C4, amended: when the inner transport returns a response whose originating request
carries a context descending from the tagged one (the tagged context, possibly with further
values bound on top, none of them a value that is not a time under
`ContextKeyRequestStart`), `resp.Request.Context()` holds a time under
`ContextKeyRequestStart` (whatever the caller's context held under that key), and with no
custom `LogResponse` the round trip succeeds with `DefaultLogResponse` printing the status
line followed by the body. This covers a transport that hands back the request it was
given, one that adds context values of its own, and a nested logging transport, which tags
the request once more. -/
theorem marker_present_when_context_kept (depth : Nat) (g : Globals) (t : Loghttp.Transport)
    (req req2 : Request) (s s1 s2 : Store) (r : Response) (rq : Request) (extra : Context)
    (hlog : t.logRequest (tagged req s) s = Run.done req2 s1)
    (hinner : callRoundTrip depth g (t.transport g) req2 s1 = Run.done (some r, none) s2)
    (hrq : r.Request = some rq) (hctx : rq.Context = extra ++ (tagged req s).Context)
    (hextra : ∀ v, (ContextKeyRequestStart, v) ∈ extra → isTime (some v) = true) :
    isTime (rq.Context.Value ContextKeyRequestStart) = true ∧
      (t.LogResponse = none → ∀ a, r.Body = some a →
        ∃ s3, Transport.RoundTrip depth g t req s = Run.done (some r, none) s3 ∧
          s3.trace = s2.trace ++ Event.DefaultLogResponse (some r) ::
            ((if (s2.streams a).ReadAll.1.2 then
                [Event.Println "Run ioutil.ReadAll(resp.Body) failed"] else []) ++
             [Event.Printf "<-- %d %s" [Arg.int r.StatusCode, Arg.str rq.URL],
              Event.Printf "<-- Body:\n %s\n" [Arg.bytes (s2.streams a).ReadAll.1.1]])) := by
  have ht : isTime (rq.Context.Value ContextKeyRequestStart) = true := by
    rw [hctx]
    exact isTime_lookup_append _ extra _ hextra (tagged_isTime req s)
  refine ⟨ht, ?_⟩
  intro hnone a hb
  unfold Transport.RoundTrip
  rw [RoundTripVia_inner_success (callRoundTrip depth g) g t req s s1 s2 req2 (some r) hlog hinner]
  simp only [Transport.logResponse, hnone]
  rw [DefaultLogResponse_body r rq a _ hrq hb]
  refine ⟨_, rfl, ?_⟩
  simp [responseLines, ht]

/-- Witness for C4 (amended): a zero-configured transport over the logging transport the
Installer set. The response's originating request was tagged a second time by the inner
layer, and the outer `DefaultLogResponse` still takes the branch with the body line (the
body, already read and closed by the inner layer, yields a failed read and no bytes). -/
theorem marker_present_when_context_kept_witness :
    isTime ((tagged (tagged samplePost sampleStore) sampleStore).Context.Value
      ContextKeyRequestStart) = true ∧
    ((Transport.RoundTrip 1 (init sampleGlobals) ⟨none, none, none⟩ samplePost
        sampleStore).storeOr sampleStore).trace.drop 16 =
      [Event.DefaultLogResponse
        (some ⟨200, some 7, some (tagged (tagged samplePost sampleStore) sampleStore)⟩),
       Event.Println "Run ioutil.ReadAll(resp.Body) failed",
       Event.Printf "<-- %d %s" [Arg.int 200, Arg.str "http://example.com/"],
       Event.Printf "<-- Body:\n %s\n" [Arg.bytes ""]] := by
  have h := marker_present_when_context_kept 1 (init sampleGlobals) ⟨none, none, none⟩
    samplePost (tagged samplePost sampleStore) sampleStore
    ((DefaultLogRequest (tagged samplePost sampleStore)
      (sampleStore.emit [Event.DefaultLogRequest (tagged samplePost sampleStore)])).storeOr sampleStore)
    ((callRoundTrip 1 (init sampleGlobals) (init sampleGlobals).httpDefaultTransport
      (tagged samplePost sampleStore)
      ((DefaultLogRequest (tagged samplePost sampleStore)
        (sampleStore.emit [Event.DefaultLogRequest (tagged samplePost sampleStore)])).storeOr
          sampleStore)).storeOr sampleStore)
    ⟨200, some 7, some (tagged (tagged samplePost sampleStore) sampleStore)⟩
    (tagged (tagged samplePost sampleStore) sampleStore)
    [(ContextKeyRequestStart, ContextValue.time 42)] rfl rfl rfl rfl
    (fun v hv => by simp at hv; subst hv; rfl)
  obtain ⟨s3, h3, h3t⟩ := h.2 rfl 7 rfl
  refine ⟨h.1, ?_⟩
  rw [h3]
  show List.drop 16 s3.trace = _
  rw [h3t]
  rfl

/-- C5 fails on the code: a GET request with a nil body (as `client.Get` builds it) sent
through a transport with no custom loggers, over an inner transport that would answer 200,
panics inside `DefaultLogRequest` after the first log line; `RoundTrip` returns nothing and
the inner transport is never called. -/
theorem RoundTrip_nil_body_panics :
    (Transport.RoundTrip 0 ⟨none, ⟨none, none, none⟩⟩ ⟨some (RoundTripper.base ok200), none, none⟩
        sampleGet sampleStore).value? = none ∧
    (Transport.RoundTrip 0 ⟨none, ⟨none, none, none⟩⟩ ⟨some (RoundTripper.base ok200), none, none⟩
        sampleGet sampleStore).final?.map (fun s => s.trace) =
      some [Event.DefaultLogRequest (tagged sampleGet sampleStore),
            Event.Printf "--> %s %s" [Arg.str "GET", Arg.str "http://www.example.com/"]] := by
  exact ⟨rfl, rfl⟩

/-- C6, as stated, fails: with no custom request logger, the body the caller passed with
`payload` still to read reaches the inner transport with nothing left to read. -/
theorem inner_body_drained_counterexample :
    sampleStore.bodyOf samplePost.Body = some ⟨[("payload", false)], false, false, false⟩ ∧
    (((Transport.RoundTrip 0 ⟨none, ⟨none, none, none⟩⟩
        ⟨some (RoundTripper.base ok200), none, none⟩ samplePost sampleStore).storeOr
          sampleStore).trace.drop 4).head? =
      some (Event.RoundTripCall (tagged samplePost sampleStore)
        (some ⟨[], false, false, false⟩)) := by
  exact ⟨rfl, rfl⟩

theorem observe_final_exists (run : Request → Store → Run Result) (req : Request)
    (s s1 : Store)
    (h : (run req (s.emit [Event.RoundTripCall req (s.bodyOf req.Body)])).final? = some s1) :
    ∃ sF, (observe run req s).final? = some sF := by
  unfold observe
  cases hr : run req (s.emit [Event.RoundTripCall req (s.bodyOf req.Body)]) with
  | exhausted => rw [hr] at h; simp [Run.final?] at h
  | panicked s2 => exact ⟨_, rfl⟩
  | done r s2 => exact ⟨_, rfl⟩

theorem callRoundTrip_base_final (depth : Nat) (g : Globals)
    (exec : Request → Streams → Effect Result) (req : Request) (s : Store) :
    ∃ sF, (callRoundTrip depth g (some (RoundTripper.base exec)) req s).final? = some sF := by
  rw [callRoundTrip_base]
  obtain ⟨s1, h1, _, _⟩ := Effect.run_final (exec req s.streams)
    (s.emit [Event.RoundTripCall req (s.bodyOf req.Body)])
  exact observe_final_exists _ req s s1 h1

theorem RoundTripVia_final_after_inner
    (call : Option RoundTripper → Request → Store → Run Result)
    (g : Globals) (t : Loghttp.Transport) (req : Request) (s s1 s2 : Store) (req2 : Request)
    (h1 : t.logRequest (tagged req s) s = Run.done req2 s1)
    (h2 : (call (t.transport g) req2 s1).final? = some s2) :
    ∃ sF tail, (Transport.RoundTripVia call g t req s).final? = some sF ∧
      sF.trace = s2.trace ++ tail := by
  cases hc : call (t.transport g) req2 s1 with
  | exhausted => rw [hc] at h2; simp [Run.final?] at h2
  | panicked s2a =>
    rw [hc] at h2
    simp only [Run.final?, Option.some.injEq] at h2
    subst h2
    rw [RoundTripVia_inner_panicked call g t req s s1 _ req2 h1 hc]
    exact ⟨_, [], rfl, by simp⟩
  | done r s2a =>
    rw [hc] at h2
    simp only [Run.final?, Option.some.injEq] at h2
    subst h2
    obtain ⟨resp, err⟩ := r
    cases err with
    | some e =>
      rw [RoundTripVia_inner_error call g t req s s1 _ req2 resp e h1 hc]
      exact ⟨_, [], rfl, by simp⟩
    | none =>
      rw [RoundTripVia_inner_success call g t req s s1 _ req2 resp h1 hc]
      obtain ⟨s3, q, h3, h3t, _⟩ := logResponse_shape t resp s2a
      refine ⟨s3, _, ?_, h3t⟩
      cases hl : t.logResponse resp s2a with
      | exhausted => exact absurd hl (logResponse_not_exhausted _ _ _)
      | panicked s3a => rw [hl] at h3; exact h3
      | done u3 s3a => rw [hl] at h3; exact h3

theorem RoundTripVia_final_inner
    (call : Option RoundTripper → Request → Store → Run Result)
    (g : Globals) (t : Loghttp.Transport) (req : Request) (s s1 sF : Store) (req2 : Request)
    (h1 : t.logRequest (tagged req s) s = Run.done req2 s1)
    (hF : (Transport.RoundTripVia call g t req s).final? = some sF) :
    ∃ s2 tail, (call (t.transport g) req2 s1).final? = some s2 ∧
      sF.trace = s2.trace ++ tail := by
  cases hc : (call (t.transport g) req2 s1).final? with
  | none =>
    have hx : call (t.transport g) req2 s1 = Run.exhausted := by
      cases hcc : call (t.transport g) req2 s1 <;> rw [hcc] at hc <;>
        simp [Run.final?] at hc
    rw [RoundTripVia_inner_exhausted call g t req s s1 req2 h1 hx] at hF
    simp [Run.final?] at hF
  | some s2 =>
    obtain ⟨sF2, tail, hF2, ht⟩ := RoundTripVia_final_after_inner call g t req s s1 s2 req2 h1 hc
    rw [hF] at hF2
    simp only [Option.some.injEq] at hF2
    subst hF2
    exact ⟨s2, tail, rfl, ht⟩

theorem DefaultLogRequest_done (req : Request) (s s1 : Store) (u : Unit)
    (h : DefaultLogRequest req s = Run.done u s1) :
    ∃ a, req.Body = some a ∧ s1.streams = Function.update s.streams a (s.streams a).ReadAll.2 := by
  cases hb : req.Body with
  | none => rw [DefaultLogRequest_nil _ _ hb] at h; simp at h
  | some a =>
    rw [DefaultLogRequest_body _ _ a hb] at h
    simp only [Run.done.injEq, true_and] at h
    subst h
    exact ⟨a, rfl, rfl⟩

theorem logRequest_default_done (t : Loghttp.Transport) (req req2 : Request) (s s1 : Store)
    (hnone : t.LogRequest = none) (h : t.logRequest req s = Run.done req2 s1) :
    req2 = req ∧ ∃ a, req.Body = some a ∧
      s1.streams = Function.update s.streams a (s.streams a).ReadAll.2 := by
  simp only [Transport.logRequest, hnone] at h
  cases hd : DefaultLogRequest req (s.emit [Event.DefaultLogRequest req]) with
  | exhausted => rw [hd] at h; simp [Run.andThen] at h
  | panicked s2 => rw [hd] at h; simp [Run.andThen] at h
  | done u s2 =>
    rw [hd] at h
    simp only [Run.andThen, Run.done.injEq] at h
    obtain ⟨h1, h2⟩ := h
    subst h1; subst h2
    obtain ⟨a, ha, hs⟩ := DefaultLogRequest_done _ _ _ _ hd
    exact ⟨rfl, a, ha, hs⟩

/-- C6, amended: the request the inner transport receives from `Transport.RoundTrip` (the
one its `RoundTrip` is called with, in whatever round trip comes to an end; over an inner
transport outside the package every round trip does) is the tagged request as the request
logger left it. `RoundTrip` itself changes only the context, which is the caller's extended
by the request-start marker. With no custom request logger the inner transport receives
that tagged request, so the caller's method, URL, headers and body stream, but
`DefaultLogRequest` has performed one read on the body, to EOF or to the first read error:
the inner transport receives what lies behind that read, which is nothing for a body that
reads to EOF without error. With a custom request logger the inner transport receives the
request and the streams as that logger left them: the caller's fields and unread body
content when the logger writes no field and leaves the body stream alone. -/
theorem inner_request_received (depth : Nat) (g : Globals) (t : Loghttp.Transport)
    (req req2 : Request) (s s1 : Store)
    (hlog : t.logRequest (tagged req s) s = Run.done req2 s1) :
    (∀ rt sF, t.transport g = some rt →
      (Transport.RoundTrip depth g t req s).final? = some sF →
      ∃ rest, sF.trace = s1.trace ++ Event.RoundTripCall req2 (s1.bodyOf req2.Body) :: rest) ∧
    (∀ exec, t.transport g = some (RoundTripper.base exec) →
      ∃ sF, (Transport.RoundTrip depth g t req s).final? = some sF) ∧
    (tagged req s).Method = req.Method ∧ (tagged req s).URL = req.URL ∧
    (tagged req s).Header = req.Header ∧ (tagged req s).Body = req.Body ∧
    (tagged req s).Context =
      Context.WithValue req.Context ContextKeyRequestStart (ContextValue.time s.now) ∧
    (t.LogRequest = none →
      req2 = tagged req s ∧
      ∃ a, req.Body = some a ∧
        s1.streams = Function.update s.streams a (s.streams a).ReadAll.2 ∧
        (∀ d, (s.streams a).reads = [(d, false)] → (s.streams a).closed = false →
          s1.bodyOf req2.Body = some { s.streams a with reads := [] })) ∧
    (∀ f, t.LogRequest = some f →
      (f (tagged req s) s.streams).result = some req2 ∧
      s1.streams = (f (tagged req s) s.streams).streams ∧
      (req2 = tagged req s → ∀ a, req.Body = some a →
        (f (tagged req s) s.streams).streams a = s.streams a →
        s1.bodyOf req2.Body = s.bodyOf req.Body)) := by
  refine ⟨?_, ?_, rfl, rfl, rfl, rfl, rfl, ?_, ?_⟩
  · intro rt sF hT hF
    obtain ⟨s2, tail, h2, h2t⟩ :=
      RoundTripVia_final_inner (callRoundTrip depth g) g t req s s1 sF req2 hlog hF
    rw [hT] at h2
    obtain ⟨rest, hrest⟩ := callRoundTrip_entry depth g rt req2 s1 s2 h2
    refine ⟨rest ++ tail, ?_⟩
    rw [h2t, hrest]
    simp
  · intro exec hT
    obtain ⟨s2, h2⟩ := callRoundTrip_base_final depth g exec req2 s1
    rw [← hT] at h2
    obtain ⟨sF, _, hF, _⟩ :=
      RoundTripVia_final_after_inner (callRoundTrip depth g) g t req s s1 s2 req2 hlog h2
    exact ⟨sF, hF⟩
  · intro hnone
    obtain ⟨h2, a, ha, hs⟩ := logRequest_default_done t _ _ _ _ hnone hlog
    have ha2 : req.Body = some a := ha
    refine ⟨h2, a, ha2, hs, ?_⟩
    intro d hd hc
    have hb2 : req2.Body = some a := by rw [h2]; exact ha
    simp [Store.bodyOf, hb2, hs, Stream.ReadAll, hd, hc]
  · intro f hf
    simp only [Transport.logRequest, hf] at hlog
    obtain ⟨hres, _, hs, _⟩ := Effect.run_done _ _ _ _ hlog
    refine ⟨hres, hs, ?_⟩
    intro h2 a ha hkeep
    have hb2 : req2.Body = some a := by rw [h2]; exact ha
    simp [Store.bodyOf, hb2, ha, hs, hkeep]

/-- Witness for C6 (amended): one POST with a body of `payload` under three request
loggers. The default logger hands on the tagged request with the body read to its end; a
callback that leaves request and body alone hands on the body unread; a callback that reads
the body and puts a fresh reader in its place hands on a request with another body stream. -/
theorem inner_request_received_witness :
    (∃ rest, ((Transport.RoundTrip 0 ⟨none, ⟨none, none, none⟩⟩
        ⟨some (RoundTripper.base ok200), none, none⟩ samplePost sampleStore).storeOr
          sampleStore).trace =
      [Event.DefaultLogRequest (tagged samplePost sampleStore),
       Event.Printf "--> %s %s" [Arg.str "POST", Arg.str "http://example.com/"],
       Event.Printf "<-- Header:\n %s\n" [Arg.header [("Content-Type", ["text/plain"])]],
       Event.Printf "<-- Body:\n %s\n" [Arg.bytes "payload"]] ++
      Event.RoundTripCall (tagged samplePost sampleStore)
        (some ⟨[], false, false, false⟩) :: rest) ∧
    (∃ rest, ((Transport.RoundTrip 0 ⟨none, ⟨none, none, none⟩⟩
        ⟨some (RoundTripper.base ok200), some methodOnly, none⟩ samplePost sampleStore).storeOr
          sampleStore).trace =
      [Event.LogRequest (tagged samplePost sampleStore), Event.Foreign "method"] ++
      Event.RoundTripCall (tagged samplePost sampleStore)
        (some ⟨[("payload", false)], false, false, false⟩) :: rest) ∧
    (∃ rest, ((Transport.RoundTrip 0 ⟨none, ⟨none, none, none⟩⟩
        ⟨some (RoundTripper.base ok200), some restoring, none⟩ samplePost sampleStore).storeOr
          sampleStore).trace =
      [Event.LogRequest (tagged samplePost sampleStore), Event.Foreign "body"] ++
      Event.RoundTripCall { tagged samplePost sampleStore with Body := some 5 }
        (some ⟨[("payload", false)], false, false, false⟩) :: rest) :=
  ⟨(inner_request_received 0 ⟨none, ⟨none, none, none⟩⟩
      ⟨some (RoundTripper.base ok200), none, none⟩ samplePost (tagged samplePost sampleStore)
      sampleStore
      ((Transport.logRequest ⟨some (RoundTripper.base ok200), none, none⟩
        (tagged samplePost sampleStore) sampleStore).storeOr sampleStore) rfl).1 _ _ rfl rfl,
   (inner_request_received 0 ⟨none, ⟨none, none, none⟩⟩
      ⟨some (RoundTripper.base ok200), some methodOnly, none⟩ samplePost
      (tagged samplePost sampleStore) sampleStore
      ((Transport.logRequest ⟨some (RoundTripper.base ok200), some methodOnly, none⟩
        (tagged samplePost sampleStore) sampleStore).storeOr sampleStore) rfl).1 _ _ rfl rfl,
   (inner_request_received 0 ⟨none, ⟨none, none, none⟩⟩
      ⟨some (RoundTripper.base ok200), some restoring, none⟩ samplePost
      { tagged samplePost sampleStore with Body := some 5 } sampleStore
      ((Transport.logRequest ⟨some (RoundTripper.base ok200), some restoring, none⟩
        (tagged samplePost sampleStore) sampleStore).storeOr sampleStore) rfl).1 _ _ rfl rfl⟩

/-- C10: each logger slot runs exactly one logger. When `LogRequest` is set, `logRequest`
calls the callback with the request it was given and the trace grows by that call and the
callback's own activity only (the default logger is not called); when it is unset,
`DefaultLogRequest` is called and the trace grows by that call and its log lines. The same
holds for `LogResponse`, `logResponse` and `DefaultLogResponse`. -/
theorem logger_slot_dispatch (t : Loghttp.Transport) (req : Request) (resp : Option Response)
    (s : Store) :
    (∀ f, t.LogRequest = some f →
      ∃ sF, (t.logRequest req s).final? = some sF ∧ sF.streams = (f req s.streams).streams ∧
        sF.trace = s.trace ++ Event.LogRequest req :: (f req s.streams).emitted.map Event.Foreign) ∧
    (t.LogRequest = none →
      t.logRequest req s =
        (DefaultLogRequest req (s.emit [Event.DefaultLogRequest req])).andThen req ∧
      ∃ sF q, (t.logRequest req s).final? = some sF ∧
        sF.trace = s.trace ++ Event.DefaultLogRequest req :: q ∧ ∀ e ∈ q, e.isOutput = true) ∧
    (∀ f, t.LogResponse = some f →
      ∃ sF, (t.logResponse resp s).final? = some sF ∧ sF.streams = (f resp s.streams).streams ∧
        sF.trace = s.trace ++ Event.LogResponse resp :: (f resp s.streams).emitted.map Event.Foreign) ∧
    (t.LogResponse = none →
      t.logResponse resp s = DefaultLogResponse resp (s.emit [Event.DefaultLogResponse resp]) ∧
      ∃ sF q, (t.logResponse resp s).final? = some sF ∧
        sF.trace = s.trace ++ Event.DefaultLogResponse resp :: q ∧ ∀ e ∈ q, e.isOutput = true) := by
  refine ⟨?_, ?_, ?_, ?_⟩
  · intro f hf
    obtain ⟨sF, h1, h2, h3⟩ := Effect.run_final (f req s.streams) (s.emit [Event.LogRequest req])
    refine ⟨sF, ?_, h3, by simpa using h2⟩
    simp only [Transport.logRequest, hf]
    exact h1
  · intro hnone
    obtain ⟨sF, q, h1, h2, h3⟩ := logRequest_shape t req s
    refine ⟨by simp only [Transport.logRequest, hnone], sF, q, h1, ?_, h3⟩
    simpa [Transport.requestLogCall, hnone] using h2
  · intro f hf
    obtain ⟨sF, h1, h2, h3⟩ := Effect.run_final (f resp s.streams) (s.emit [Event.LogResponse resp])
    refine ⟨sF, ?_, h3, by simpa using h2⟩
    simp only [Transport.logResponse, hf]
    exact h1
  · intro hnone
    obtain ⟨sF, q, h1, h2, h3⟩ := logResponse_shape t resp s
    refine ⟨by simp only [Transport.logResponse, hnone], sF, q, h1, ?_, h3⟩
    simpa [Transport.responseLogCall, hnone] using h2

/-- Witness for C10: with `LogRequest` set and `LogResponse` unset, the request slot runs
the callback and the response slot runs `DefaultLogResponse`. -/
theorem logger_slot_dispatch_witness :
    (∃ sF, (Transport.logRequest ⟨none, some methodOnly, none⟩ samplePost sampleStore).final?
        = some sF ∧
      sF.trace = [Event.LogRequest samplePost, Event.Foreign "method"]) ∧
    Transport.logResponse ⟨none, some methodOnly, none⟩ none sampleStore =
      DefaultLogResponse none (sampleStore.emit [Event.DefaultLogResponse none]) := by
  have h := logger_slot_dispatch ⟨none, some methodOnly, none⟩ samplePost none sampleStore
  obtain ⟨sF, h1, _, h2⟩ := h.1 methodOnly rfl
  exact ⟨⟨sF, h1, h2⟩, (h.2.2.2 rfl).1⟩

/-- C7, as stated, fails: when `http.DefaultTransport` was reassigned (to `notFound`) after
package `loghttp` had been initialised (over `ok200`), the Installer installs a logging
transport whose inner transport is still `ok200`: a request through the new process default
is answered 200 by `ok200`, whereas the transport held just before the Installer ran
answers 404. -/
theorem init_inner_not_previous_counterexample :
    (callRoundTrip 0 reassignedGlobals reassignedGlobals.httpDefaultTransport samplePost
        sampleStore).value? =
      some (some ⟨404, some 7, some samplePost⟩, none) ∧
    (callRoundTrip 1 (init reassignedGlobals) (init reassignedGlobals).httpDefaultTransport
        samplePost sampleStore).value? =
      some (some ⟨200, some 7, some (tagged samplePost sampleStore)⟩, none) ∧
    Event.Foreign "lookup" ∉
      ((callRoundTrip 1 (init reassignedGlobals) (init reassignedGlobals).httpDefaultTransport
        samplePost sampleStore).storeOr sampleStore).trace := by
  refine ⟨rfl, rfl, ?_⟩
  decide

/-- C7, amended: after the Installer runs, the process-wide default transport is
`loghttp.DefaultTransport` (which the Installer leaves as it is): a logging transport whose
inner transport is the value the process-wide default held when package `loghttp` was
initialised, so that it wraps the previous default when the Installer runs right after that
initialisation; a request sent through the process default is one call of `RoundTrip` on
that logging transport. -/
theorem init_installs_DefaultTransport (g : Globals) :
    (init g).httpDefaultTransport = some g.DefaultTransport.toRoundTripper ∧
    (init g).DefaultTransport = g.DefaultTransport ∧
    (init (loghttpInit g)).httpDefaultTransport =
      some (RoundTripper.logging g.httpDefaultTransport none none) ∧
    ∀ (depth : Nat) (req : Request) (s : Store),
      callRoundTrip (depth + 1) (init g) (init g).httpDefaultTransport req s =
        observe (Transport.RoundTrip depth (init g) g.DefaultTransport) req s :=
  ⟨rfl, rfl, rfl, fun _ _ _ => rfl⟩

theorem RoundTripVia_success_cases (call : Option RoundTripper → Request → Store → Run Result)
    (g : Globals) (t : Loghttp.Transport) (req : Request) (s sF : Store)
    (resp : Option Response)
    (h : Transport.RoundTripVia call g t req s = Run.done (resp, none) sF) :
    ∃ req2 s1 s2, t.logRequest (tagged req s) s = Run.done req2 s1 ∧
      call (t.transport g) req2 s1 = Run.done (resp, none) s2 ∧
      t.logResponse resp s2 = Run.done () sF := by
  cases h1 : t.logRequest (tagged req s) s with
  | exhausted => exact absurd h1 (logRequest_not_exhausted _ _ _)
  | panicked s1 =>
    rw [RoundTripVia_logRequest_panicked call g t req s s1 h1] at h
    simp at h
  | done req2 s1 =>
    cases h2 : call (t.transport g) req2 s1 with
    | exhausted =>
      rw [RoundTripVia_inner_exhausted call g t req s s1 req2 h1 h2] at h
      simp at h
    | panicked s2 =>
      rw [RoundTripVia_inner_panicked call g t req s s1 s2 req2 h1 h2] at h
      simp at h
    | done r s2 =>
      obtain ⟨resp2, err2⟩ := r
      cases err2 with
      | some e2 =>
        rw [RoundTripVia_inner_error call g t req s s1 s2 req2 resp2 e2 h1 h2] at h
        simp at h
      | none =>
        rw [RoundTripVia_inner_success call g t req s s1 s2 req2 resp2 h1 h2] at h
        cases h3 : t.logResponse resp2 s2 with
        | exhausted => rw [h3] at h; simp at h
        | panicked s3 => rw [h3] at h; simp at h
        | done u3 s3 =>
          rw [h3] at h
          simp only [Run.done.injEq, Prod.mk.injEq, and_true] at h
          obtain ⟨hr, hs⟩ := h
          subst hr; subst hs
          exact ⟨req2, s1, s2, rfl, h2, h3⟩

theorem requestLogCall_isRequestLog (t : Loghttp.Transport) (req : Request) :
    (t.requestLogCall req).isRequestLog = true := by
  unfold Transport.requestLogCall
  cases t.LogRequest <;> rfl

theorem responseLogCall_isResponseLog (t : Loghttp.Transport) (resp : Option Response) :
    (t.responseLogCall resp).isResponseLog = true := by
  unfold Transport.responseLogCall
  cases t.LogResponse <;> rfl

theorem responseLogCall_not_requestLog (t : Loghttp.Transport) (resp : Option Response) :
    (t.responseLogCall resp).isRequestLog = false := by
  unfold Transport.responseLogCall
  cases t.LogResponse <;> rfl

/-- One logging layer over a transport outside the package: a successful round trip adds
one request-logger call and one response-logger call to the trace. -/
theorem RoundTrip_over_base_counts (depth : Nat) (g : Globals) (t : Loghttp.Transport)
    (exec : Request → Streams → Effect Result) (req : Request) (s sF : Store)
    (resp : Option Response)
    (hT : t.transport g = some (RoundTripper.base exec))
    (h : Transport.RoundTrip depth g t req s = Run.done (resp, none) sF) :
    sF.trace.countP Event.isRequestLog = s.trace.countP Event.isRequestLog + 1 ∧
      sF.trace.countP Event.isResponseLog = s.trace.countP Event.isResponseLog + 1 := by
  obtain ⟨req2, s1, s2, h1, h2, h3⟩ := RoundTripVia_success_cases _ g t req s sF resp h
  obtain ⟨q1, hq1, hq1o⟩ := logRequest_done_trace _ _ _ _ _ h1
  rw [hT] at h2
  obtain ⟨_, _, hmid⟩ := callRoundTrip_base_done depth g exec _ s1 s2 _ h2
  obtain ⟨q2, hq2, hq2o⟩ := logResponse_final_trace t resp s2 sF (by rw [h3]; rfl)
  rw [hq2, hmid, hq1]
  simp only [List.countP_append, List.countP_cons, List.countP_nil]
  rw [countP_requestLog_output _ hq1o, countP_requestLog_output _ hq2o,
    countP_requestLog_output _ (foreign_isOutput _),
    countP_responseLog_output _ hq1o, countP_responseLog_output _ hq2o,
    countP_responseLog_output _ (foreign_isOutput _),
    requestLogCall_isRequestLog, requestLogCall_not_responseLog,
    responseLogCall_isResponseLog, responseLogCall_not_requestLog]
  simp [Event.isRequestLog, Event.isResponseLog]

/-- C8, as stated, fails: after the Installer has run twice, one successful request through
the process-wide default transport calls a request logger once and a response logger once. -/
theorem init_twice_logs_once_counterexample :
    (callRoundTrip 1 (init (init sampleGlobals)) (init (init sampleGlobals)).httpDefaultTransport
        samplePost sampleStore).value? =
      some (some ⟨200, some 7, some (tagged samplePost sampleStore)⟩, none) ∧
    ((callRoundTrip 1 (init (init sampleGlobals)) (init (init sampleGlobals)).httpDefaultTransport
        samplePost sampleStore).storeOr sampleStore).trace.countP Event.isRequestLog = 1 ∧
    ((callRoundTrip 1 (init (init sampleGlobals)) (init (init sampleGlobals)).httpDefaultTransport
        samplePost sampleStore).storeOr sampleStore).trace.countP Event.isResponseLog = 1 := by
  refine ⟨rfl, ?_, ?_⟩ <;> decide

/-- C8, amended: running the Installer twice leaves the package variables exactly as one
run does (the process default is `loghttp.DefaultTransport`, one logging layer); when the
inner transport of that layer is a transport outside the package, one successful request
through the process-wide default calls a request logger once and a response logger once. -/
theorem init_twice (g : Globals) :
    init (init g) = init g ∧
    ∀ (depth : Nat) (exec : Request → Streams → Effect Result) (req : Request) (s sF : Store)
      (resp : Option Response),
      g.DefaultTransport.Transport = some (RoundTripper.base exec) →
      callRoundTrip (depth + 1) (init (init g)) (init (init g)).httpDefaultTransport req s =
        Run.done (resp, none) sF →
      sF.trace.countP Event.isRequestLog = s.trace.countP Event.isRequestLog + 1 ∧
        sF.trace.countP Event.isResponseLog = s.trace.countP Event.isResponseLog + 1 := by
  refine ⟨rfl, ?_⟩
  intro depth exec req s sF resp hT h
  obtain ⟨s1, h1, hs⟩ := observe_done (Transport.RoundTrip depth (init (init g)) g.DefaultTransport)
    req s sF _ h
  obtain ⟨hq, hr⟩ := RoundTrip_over_base_counts depth _ g.DefaultTransport exec req _ s1 resp
    (by simp [Transport.transport, hT]) h1
  subst hs
  simp [List.countP_append, List.countP_cons, Event.isRequestLog, Event.isResponseLog] at hq hr ⊢
  omega

/-- Witness for C8 (amended): two runs of the Installer over `ok200`, then one POST. -/
theorem init_twice_witness :
    init (init sampleGlobals) = init sampleGlobals ∧
    ((callRoundTrip 1 (init (init sampleGlobals)) (init (init sampleGlobals)).httpDefaultTransport
        samplePost sampleStore).storeOr sampleStore).trace.countP Event.isRequestLog =
      sampleStore.trace.countP Event.isRequestLog + 1 :=
  ⟨(init_twice sampleGlobals).1,
   ((init_twice sampleGlobals).2 0 ok200 samplePost sampleStore _
      (some ⟨200, some 7, some (tagged samplePost sampleStore)⟩) rfl rfl).1⟩

/-- C9, as stated, fails: when the process-wide default transport is the value the Installer
set, one successful round trip on a zero-configured transport calls `DefaultLogRequest` twice
and `DefaultLogResponse` twice. -/
theorem zero_config_logs_twice_counterexample :
    (Transport.RoundTrip 1 (init sampleGlobals) ⟨none, none, none⟩ samplePost sampleStore).value? =
      some (some ⟨200, some 7, some (tagged (tagged samplePost sampleStore) sampleStore)⟩, none) ∧
    ((Transport.RoundTrip 1 (init sampleGlobals) ⟨none, none, none⟩ samplePost
        sampleStore).storeOr sampleStore).trace.filter Event.isRequestLog =
      [Event.DefaultLogRequest (tagged samplePost sampleStore),
       Event.DefaultLogRequest (tagged (tagged samplePost sampleStore) sampleStore)] ∧
    ((Transport.RoundTrip 1 (init sampleGlobals) ⟨none, none, none⟩ samplePost
        sampleStore).storeOr sampleStore).trace.countP Event.isResponseLog = 2 := by
  refine ⟨rfl, ?_, ?_⟩ <;> decide

/-- C9, amended: for every value of the process-wide default transport at the time of the
call, `RoundTrip` on a zero-configured transport with a request that has a body calls
`DefaultLogRequest` once itself and then `RoundTrip` of the process-wide default on the
tagged request. When that call returns an error, `RoundTrip` returns exactly that pair;
when it returns a nil error and a response with an originating request and a body,
`RoundTrip` calls `DefaultLogResponse` once itself and returns exactly that pair. What the
process-wide default logs on its own account comes in addition. -/
theorem zero_config_RoundTrip (depth : Nat) (g : Globals) (req : Request) (s : Store) (a : Nat)
    (hb : req.Body = some a) :
    ∃ s1 q1, Transport.logRequest ⟨none, none, none⟩ (tagged req s) s =
        Run.done (tagged req s) s1 ∧
      s1.trace = s.trace ++ Event.DefaultLogRequest (tagged req s) :: q1 ∧
      (∀ e ∈ q1, e.isOutput = true) ∧
      ∀ (resp : Option Response) (err : Option String) (s2 : Store),
        callRoundTrip depth g g.httpDefaultTransport (tagged req s) s1 = Run.done (resp, err) s2 →
        (err.isSome = true →
          Transport.RoundTrip depth g ⟨none, none, none⟩ req s = Run.done (resp, err) s2) ∧
        (err = none → ∀ r rq b, resp = some r → r.Request = some rq → r.Body = some b →
          ∃ s3 q2, Transport.RoundTrip depth g ⟨none, none, none⟩ req s = Run.done (resp, none) s3 ∧
            s3.trace = s2.trace ++ Event.DefaultLogResponse resp :: q2 ∧
            ∀ e ∈ q2, e.isOutput = true) := by
  have hb1 : (tagged req s).Body = some a := hb
  have hlog : Transport.logRequest ⟨none, none, none⟩ (tagged req s) s =
      Run.done (tagged req s)
        { streams := Function.update s.streams a (s.streams a).ReadAll.2,
          now := s.now,
          trace := s.trace ++ Event.DefaultLogRequest (tagged req s) ::
            requestLines (tagged req s) (s.streams a).ReadAll.1 } := by
    simp only [Transport.logRequest]
    rw [DefaultLogRequest_body _ _ a hb1]
    simp [Run.andThen]
  refine ⟨_, requestLines (tagged req s) (s.streams a).ReadAll.1, hlog, rfl,
    requestLines_isOutput _ _, ?_⟩
  intro resp err s2 hinner
  constructor
  · intro he
    obtain ⟨e, rfl⟩ := Option.isSome_iff_exists.mp he
    exact RoundTripVia_inner_error (callRoundTrip depth g) g ⟨none, none, none⟩ req s _ s2
      (tagged req s) resp e hlog hinner
  · intro he r rq b hr hrq hbody
    subst he; subst hr
    unfold Transport.RoundTrip
    rw [RoundTripVia_inner_success (callRoundTrip depth g) g ⟨none, none, none⟩ req s _ s2
      (tagged req s) (some r) hlog hinner]
    simp only [Transport.logResponse]
    rw [DefaultLogResponse_body r rq b _ hrq hbody]
    exact ⟨_, responseLines r rq (s2.streams b).ReadAll.1, rfl, by simp,
      responseLines_isOutput _ _ _⟩

/-- Witness for C9 (amended): a zero-configured transport while the process-wide default is
`ok200`. -/
theorem zero_config_RoundTrip_witness :
    (Transport.RoundTrip 0 sampleGlobals ⟨none, none, none⟩ samplePost sampleStore).value? =
      some (some ⟨200, some 7, some (tagged samplePost sampleStore)⟩, none) := by
  obtain ⟨s1, q1, h1, _, _, h⟩ := zero_config_RoundTrip 0 sampleGlobals samplePost sampleStore 3 rfl
  have hs1 : s1 = (Transport.logRequest ⟨none, none, none⟩ (tagged samplePost sampleStore)
      sampleStore).storeOr sampleStore := by rw [h1]; rfl
  subst hs1
  obtain ⟨s3, _, h3, _⟩ := (h (some ⟨200, some 7, some (tagged samplePost sampleStore)⟩) none _ rfl).2
    rfl _ _ 7 rfl rfl rfl
  rw [h3]
  rfl

end Loghttp
